import Mathlib

/-!
Verification development for the `swissqr` Go package (Swiss QR invoice
generation).  The Go source is shallowly embedded: Go strings become Lean
`String`s (`len` on a Go string is its UTF-8 byte count, modelled by
`String.utf8ByteSize`; ranging over a Go string yields its runes, modelled
by `String.data`), Go `float64` values that hold exact decimal data
(payment amounts, tax rates, glyph widths) become exact rationals `ℚ`,
Go `error` results become `Option VErr` (`none` = nil error), and run-time
panics (nil dereference, out-of-range slice or index) are modelled
explicitly with a `panic`-like result constructor or `Option`.
-/

set_option maxRecDepth 100000

attribute [local semireducible] Rat.ofScientific Rat.mul Rat.inv Rat.add Rat.sub

namespace Swissqr

/-- Go `len(s)` on a string counts UTF-8 bytes. -/
def goLen (s : String) : Nat := s.utf8ByteSize

/-- Digit-extraction loop for decimal rendering, structurally recursive
on a fuel bound (`n + 1` is always enough fuel for `n`). -/
def natCharsAux : Nat → Nat → List Char
  | 0, _ => []
  | fuel + 1, n =>
    if n < 10 then [Nat.digitChar n]
    else natCharsAux fuel (n / 10) ++ [Nat.digitChar (n % 10)]

/-- Decimal digit characters of a natural number, most significant first.
Models the output of Go integer formatting (`%d`, `strconv`). -/
def natChars (n : Nat) : List Char := natCharsAux (n + 1) n

/-- Decimal string of a natural number, models Go `%d` on non-negative values. -/
def natStr (n : Nat) : String := ⟨natChars n⟩

/-- Decimal string of an integer, models Go `%d`. -/
def intStr (n : Int) : String :=
  if n < 0 then "-" ++ natStr n.natAbs else natStr n.natAbs

/-- Two-digit zero-padded decimal, models Go `time.Time.Format` fields
like `06`, `01`, `02` (values are taken mod 100). -/
def pad2 (n : Nat) : String := ⟨[Nat.digitChar (n / 10 % 10), Nat.digitChar (n % 10)]⟩

/-- Validation failure reasons.  Each constructor corresponds to one
`errors.New` / `fmt.Errorf` site in the Go source; only the character-set
error carries its data (the offending rune and the original string),
because the spec claims talk about that data. -/
inductive VErr where
  | charNotAllowed (c : Char) (s : String)
  | noAccount
  | onlyCHandLI
  | nameEmpty
  | nameTooLong
  | countryMissing
  | countryNotTwoLetters
  | invalidCountry
  | unsupportedAddressType
  | addressLine2Missing
  | addressLineTooLong
  | postCodeTownMissing
  | streetTooLong
  | buildingTooLong
  | postCodeTooLong
  | townTooLong
  | currencyInvalid
  | amountNegative
  | amountTooLarge
  | unknownReferenceType
  | combinedTooLong
  | tooManyAltProcedures
  | noLabel
  | noProcedure
  | procedureTooLong
  | noCreditorName
  | ultimateCreditorNotSupported
  | qrReferenceRequired
  | qrReferenceNotAllowed
  | invoiceDateHasEnd
  | vatNumberNotDigits
  | endNotAfterStart
  | vatAmountNegative
  | vatRateNegative
  | discountNegative
  | daysNegative
  deriving DecidableEq, Repr

/-- The allowed runes from the Swiss Implementation Guidelines, exactly the
`validRunes` string constant of the Go source (characters that the scanner of
this development cannot hold in a literal are written via `Char.ofNat`:
0x27 is the apostrophe, 0x22 the double quote, 0x5C the backslash,
0x5B/0x5D the square brackets, 0x7B/0x7D the braces, 0x60 the backtick). -/
def validRunes : List Char :=
  ("abcdefghijklmnopqrstuvwxyz").data ++
  ("ABCDEFGHIJKLMNOPQRSTUVWXYZ0123456789").data ++
  ['.', ',', ':', Char.ofNat 0x27, '+', '-', '/', '(', ')', '?', ' ', '!',
   Char.ofNat 0x22, '#', '%', '&', '*', ';', '<', '>', '÷', '=', '@', '_',
   '$', '£', Char.ofNat 0x5B, Char.ofNat 0x5D, Char.ofNat 0x7B,
   Char.ofNat 0x7D, Char.ofNat 0x5C, Char.ofNat 0x60, '´', '~'] ++
  ("àáâäçèéêëìíîïñòóôöùúûüýß").data ++
  ("ÀÁÂÄÇÈÉÊËÌÍÎÏÒÓÔÖÙÚÛÜÑ").data

/-- Loop body of `ValidateCharacterSet`: scan the runes of the original
string `s0`, reporting the first rune not contained in `validRunes`. -/
def csLoop (s0 : String) : List Char → Option VErr
  | [] => none
  | c :: rest =>
    if validRunes.contains c then csLoop s0 rest
    else some (VErr.charNotAllowed c s0)

/-- `ValidateCharacterSet` from the Go source: succeeds iff every rune of
`s` is in `validRunes`, otherwise reports the first offending rune together
with the original string. -/
def ValidateCharacterSet (s : String) : Option VErr := csLoop s s.data

/-- The ISO country-code table `countryCodes` from the Go source. -/
def countryCodes : List String :=
  ["AD", "AE", "AF", "AG", "AI", "AL", "AM", "AO", "AQ", "AR", "AS", "AT",
   "AU", "AW", "AX", "AZ", "BA", "BB", "BD", "BE", "BF", "BG", "BH", "BI",
   "BJ", "BL", "BM", "BN", "BO", "BQ", "BR", "BS", "BT", "BV", "BW", "BY",
   "BZ", "CA", "CC", "CD", "CF", "CG", "CH", "CI", "CK", "CL", "CM", "CN",
   "CO", "CR", "CU", "CV", "CW", "CX", "CY", "CZ", "DE", "DJ", "DK", "DM",
   "DO", "DZ", "EC", "EE", "EG", "EH", "ER", "ES", "ET", "FI", "FJ", "FK",
   "FM", "FO", "FR", "GA", "GB", "GD", "GE", "GF", "GG", "GH", "GI", "GL",
   "GM", "GN", "GP", "GQ", "GR", "GS", "GT", "GU", "GW", "GY", "HK", "HM",
   "HN", "HR", "HT", "HU", "ID", "IE", "IL", "IM", "IN", "IO", "IQ", "IR",
   "IS", "IT", "JE", "JM", "JO", "JP", "KE", "KG", "KH", "KI", "KM", "KN",
   "KP", "KR", "KW", "KY", "KZ", "LA", "LB", "LC", "LI", "LK", "LR", "LS",
   "LT", "LU", "LV", "LY", "MA", "MC", "MD", "ME", "MF", "MG", "MH", "MK",
   "ML", "MM", "MN", "MO", "MP", "MQ", "MR", "MS", "MT", "MU", "MV", "MW",
   "MX", "MY", "MZ", "NA", "NC", "NE", "NF", "NG", "NI", "NL", "NO", "NP",
   "NR", "NU", "NZ", "OM", "PA", "PE", "PF", "PG", "PH", "PK", "PL", "PM",
   "PN", "PR", "PS", "PT", "PW", "PY", "QA", "RE", "RO", "RS", "RU", "RW",
   "SA", "SB", "SC", "SD", "SE", "SG", "SH", "SI", "SJ", "SK", "SL", "SM",
   "SN", "SO", "SR", "SS", "ST", "SV", "SX", "SY", "SZ", "TC", "TD", "TF",
   "TG", "TH", "TJ", "TK", "TL", "TM", "TN", "TO", "TR", "TT", "TV", "TW",
   "TZ", "UA", "UG", "UM", "US", "UY", "UZ", "VA", "VC", "VE", "VG", "VI",
   "VN", "VU", "WF", "WS", "YE", "YT", "ZA", "ZM", "ZW"]

/-! ## Structured bill information (`structured.go`) -/

/-- A calendar date, modelling a Go `time.Time` holding a UTC midnight
date.  Ordering is lexicographic, matching `time.Time.After` on such
values. -/
structure GoDate where
  year : Nat
  month : Nat
  day : Nat
  deriving DecidableEq, Repr

/-- `time.Time.After`: strictly later in lexicographic order. -/
def GoDate.after (a b : GoDate) : Bool :=
  b.year < a.year ∨ (b.year = a.year ∧ (b.month < a.month ∨
    (b.month = a.month ∧ b.day < a.day)))

/-- `time.Time.Format("060102")` on a UTC midnight date. -/
def GoDate.format060102 (d : GoDate) : String :=
  pad2 (d.year % 100) ++ pad2 d.month ++ pad2 d.day

/-- The internal `dates` struct: one date or a start/end interval.  A Go
zero `time.Time` (`IsZero()` true) is modelled as `none`. -/
structure Dates where
  date : Option GoDate
  endDate : Option GoDate
  deriving DecidableEq, Repr

/-- `OneDate` helper from the Go source. -/
def OneDate (year month day : Nat) : Dates :=
  { date := some ⟨year, month, day⟩, endDate := none }

/-- `StartAndEndDate` helper from the Go source. -/
def StartAndEndDate (sy sm sd ey em ed : Nat) : Dates :=
  { date := some ⟨sy, sm, sd⟩, endDate := some ⟨ey, em, ed⟩ }

/-- `dates.ToString`: empty if the date is zero, else the date (and the
end date, concatenated with no separator, when present) as `060102`. -/
def Dates.ToString (d : Dates) : String :=
  match d.date with
  | none => ""
  | some a =>
    match d.endDate with
    | none => a.format060102
    | some b => a.format060102 ++ b.format060102

/-- A tax rate with an optional amount (`TaxRate`).  The Go `float64`
fields are modelled as exact rationals. -/
structure TaxRate where
  ratePercent : ℚ
  amount : ℚ
  deriving DecidableEq, Repr

/-- A payment condition (`PaymentCondition`): discount percent and number
of days. -/
structure PaymentCondition where
  discountPercent : ℚ
  numberOfDays : Int
  deriving DecidableEq, Repr

/-- Left-pad the decimal representation of `fp` with zeros to `k` digits.
Used for the fractional part of a decimal rendering. -/
def fracDigits (k fp : Nat) : String :=
  ⟨List.replicate (k - (natChars fp).length) '0'⟩ ++ natStr fp

/-- Models Go `fmt.Sprintf("%g", x)` on a `float64` holding an exact
decimal value: the shortest decimal representation, with no decimal point
when the fractional part is zero and no trailing fractional zeros
otherwise.  (The scientific-notation regime of `%g` and non-decimal
rationals do not occur in this code base; the final fallback case is
unreachable for the values used.) -/
def formatG (q : ℚ) : String :=
  let sign := if q < 0 then "-" else ""
  let n := q.num.natAbs
  let d := q.den
  match (List.range 21).find? (fun k => decide (d ∣ 10 ^ k)) with
  | some k =>
    let scaled := n * (10 ^ k / d)
    let ip := scaled / 10 ^ k
    let fp := scaled % 10 ^ k
    if fp = 0 then sign ++ natStr ip
    else sign ++ natStr ip ++ "." ++ fracDigits k fp
  | none => sign ++ natStr n ++ "/" ++ natStr d

/-- `TaxRates.ToString`: entries rendered `rate` or `rate:amount`
(when the amount is positive), semicolon-joined. -/
def TaxRates.ToString (t : List TaxRate) : String :=
  String.intercalate (";") (t.map (fun rate =>
    if 0 < rate.amount then formatG rate.ratePercent ++ ":" ++ formatG rate.amount
    else formatG rate.ratePercent))

/-- `PaymentConditions.ToString`: entries rendered `discount:days`,
semicolon-joined. -/
def PaymentConditions.ToString (c : List PaymentCondition) : String :=
  String.intercalate (";") (c.map (fun cond =>
    formatG cond.discountPercent ++ ":" ++ intStr cond.numberOfDays))

/-- `BillInformation`: optional structured billing data. -/
structure BillInformation where
  invoiceNumber : String
  invoiceDate : Dates
  customerReference : String
  vatNumber : String
  vatDates : Dates
  vatRates : List TaxRate
  vatImportTaxRates : List TaxRate
  conditions : List PaymentCondition
  deriving DecidableEq, Repr

/-- The per-element loop over a list of tax rates in
`BillInformation.Validate`: amount checked before rate, first failure
returned. -/
def taxRatesLoop : List TaxRate → Option VErr
  | [] => none
  | rate :: rest =>
    if rate.amount < 0 then some VErr.vatAmountNegative
    else if rate.ratePercent < 0 then some VErr.vatRateNegative
    else taxRatesLoop rest

/-- The per-element loop over the payment conditions in
`BillInformation.Validate`. -/
def conditionsLoop : List PaymentCondition → Option VErr
  | [] => none
  | cond :: rest =>
    if cond.discountPercent < 0 then some VErr.discountNegative
    else if cond.numberOfDays < 0 then some VErr.daysNegative
    else conditionsLoop rest

/-- The tail of `BillInformation.Validate` after the VAT-dates check
(the three list loops). -/
def billTail (bi : BillInformation) : Option VErr :=
  match taxRatesLoop bi.vatRates with
  | some e => some e
  | none =>
  match taxRatesLoop bi.vatImportTaxRates with
  | some e => some e
  | none => conditionsLoop bi.conditions

/-- `BillInformation.Validate`, transcribed check for check from the Go
source.  The `^[0-9]*$` regular expression on the VAT number is the
all-ASCII-digits predicate. -/
def BillInformation.Validate (bi : BillInformation) : Option VErr :=
  match ValidateCharacterSet bi.invoiceNumber with
  | some e => some e
  | none =>
  if bi.invoiceDate.endDate ≠ none then some VErr.invoiceDateHasEnd
  else match ValidateCharacterSet bi.customerReference with
  | some e => some e
  | none =>
  if ¬ (bi.vatNumber.data.all Char.isDigit) then some VErr.vatNumberNotDigits
  else match bi.vatDates.date with
  | some d =>
    (match bi.vatDates.endDate with
     | some e =>
       if ¬ (e.after d) then some VErr.endNotAfterStart
       else billTail bi
     | none => billTail bi)
  | none => billTail bi

/-- `BillInformation.ToString`: tagged segments appended only for present
fields, in fixed tag order, prefixed by the scheme marker when non-empty. -/
def BillInformation.ToString (bi : BillInformation) : String :=
  let r0 := ""
  let r1 := if bi.invoiceNumber ≠ "" then r0 ++ "/10/" ++ bi.invoiceNumber else r0
  let s11 := bi.invoiceDate.ToString
  let r2 := if s11 ≠ "" then r1 ++ "/11/" ++ s11 else r1
  let r3 := if bi.customerReference ≠ "" then r2 ++ "/20/" ++ bi.customerReference else r2
  let r4 := if bi.vatNumber ≠ "" then r3 ++ "/30/" ++ bi.vatNumber else r3
  let s31 := bi.vatDates.ToString
  let r5 := if s31 ≠ "" then r4 ++ "/31/" ++ s31 else r4
  let s32 := TaxRates.ToString bi.vatRates
  let r6 := if s32 ≠ "" then r5 ++ "/32/" ++ s32 else r5
  let s33 := TaxRates.ToString bi.vatImportTaxRates
  let r7 := if s33 ≠ "" then r6 ++ "/33/" ++ s33 else r6
  let s40 := PaymentConditions.ToString bi.conditions
  let r8 := if s40 ≠ "" then r7 ++ "/40/" ++ s40 else r7
  if r8 ≠ "" then "//S1" ++ r8 else r8

/-! ## Data model (`doc.go` / `part_006`) -/

/-- The fields of an `iban.IBAN` value (external `go-iban` package) that
this code base reads: the full code, the country code, the basic bank
account number and the print format. -/
structure IBAN where
  code : String
  countryCode : String
  bban : String
  printCode : String
  deriving DecidableEq, Repr

/-- `AccountNumber`: a possibly-nil pointer to an IBAN. -/
structure AccountNumber where
  iban : Option IBAN
  deriving DecidableEq, Repr

/-- `CombinedAddress`: two free-text address lines. -/
structure CombinedAddress where
  addressLine1 : String
  addressLine2 : String
  deriving DecidableEq, Repr

/-- `StructuredAddress`: street, building number, post code, town. -/
structure StructuredAddress where
  streetName : String
  buildingNumber : String
  postCode : String
  townName : String
  deriving DecidableEq, Repr

/-- A value implementing the `qrAddress` interface: one of the two
in-package address types, or a foreign implementation (`other`, which the
validator rejects as an unsupported address type). -/
inductive Address where
  | combined (ca : CombinedAddress)
  | structured (sa : StructuredAddress)
  | other
  deriving DecidableEq, Repr

/-- `Entity`: name, address interface value (`none` models a nil
interface), country code. -/
structure Entity where
  name : String
  address : Option Address
  countryCode : String
  deriving DecidableEq, Repr

/-- `PaymentAmount`: amount (exact rational standing for the `float64`)
and currency. -/
structure PaymentAmount where
  amount : ℚ
  currency : String
  deriving DecidableEq, Repr

/-- A value implementing `structref.Printer`: a Swiss QR reference number
(`*structref.ReferenceNumber`), an ISO creditor reference
(`*structref.CreditorReference`), or a foreign implementation.  The
string payload of the two known variants models the external
`DigitalFormat()` rendering of the reference. -/
inductive RefNumber where
  | qr (digital : String)
  | scor (digital : String)
  | unknown
  deriving DecidableEq, Repr

/-- `PaymentReference`: a possibly-nil reference interface value. -/
structure PaymentReference where
  number : Option RefNumber
  deriving DecidableEq, Repr

/-- `PaymentInformation`: unstructured message plus structured bill
information. -/
structure PaymentInformation where
  unstructuredMessage : String
  structuredMessage : BillInformation
  deriving DecidableEq, Repr

/-- `AlternativeProcedure`: label and procedure description. -/
structure AlternativeProcedure where
  label : String
  procedure : String
  deriving DecidableEq, Repr

/-- `Payload`: the complete Swiss QR invoice payload. -/
structure Payload where
  account : AccountNumber
  creditor : Entity
  ultimateCreditor : Entity
  currencyAmount : PaymentAmount
  ultimateDebtor : Entity
  reference : PaymentReference
  additionalInformation : PaymentInformation
  alternativeProcedureParameters : List AlternativeProcedure
  deriving DecidableEq, Repr

/-! ## Validation (`validate.go`) -/

/-- Floor of a rational as an integer.  (Defined directly on the
numerator and denominator to keep kernel evaluation simple.) -/
def ratFloor (q : ℚ) : Int := q.num.fdiv q.den

/-- Round a non-negative rational to a whole number of hundredths,
half away from zero. -/
def round2 (q : ℚ) : Nat := (ratFloor (q * 100 + 1 / 2)).toNat

/-- Fixed two-decimal rendering of a number of hundredths. -/
def formatFixed2Nat (m : Nat) : String :=
  natStr (m / 100) ++ "." ++ ⟨[Nat.digitChar (m / 10 % 10), Nat.digitChar (m % 10)]⟩

/-- Models Go `fmt.Sprintf("%.2f", x)` on a `float64` holding an exact
decimal value: the value fixed to two decimal places. -/
def formatFixed2 (q : ℚ) : String :=
  if q < 0 then "-" ++ formatFixed2Nat (round2 (-q)) else formatFixed2Nat (round2 q)

/-- `AccountNumber.Validate`. -/
def AccountNumber.Validate (a : AccountNumber) : Option VErr :=
  match a.iban with
  | none => some VErr.noAccount
  | some ib =>
    if ib.countryCode ≠ "CH" ∧ ib.countryCode ≠ "LI" then some VErr.onlyCHandLI
    else none

/-- `CombinedAddress.Validate`. -/
def CombinedAddress.Validate (ca : CombinedAddress) : Option VErr :=
  if ca.addressLine2 = "" then some VErr.addressLine2Missing
  else match ValidateCharacterSet ca.addressLine1 with
  | some e => some e
  | none =>
  match ValidateCharacterSet ca.addressLine2 with
  | some e => some e
  | none =>
  if 70 < goLen ca.addressLine1 then some VErr.addressLineTooLong
  else if 70 < goLen ca.addressLine2 then some VErr.addressLineTooLong
  else none

/-- `StructuredAddress.Validate`. -/
def StructuredAddress.Validate (sa : StructuredAddress) : Option VErr :=
  if sa.postCode = "" ∨ sa.townName = "" then some VErr.postCodeTownMissing
  else match ValidateCharacterSet sa.streetName with
  | some e => some e
  | none =>
  match ValidateCharacterSet sa.buildingNumber with
  | some e => some e
  | none =>
  match ValidateCharacterSet sa.postCode with
  | some e => some e
  | none =>
  match ValidateCharacterSet sa.townName with
  | some e => some e
  | none =>
  if 70 < goLen sa.streetName then some VErr.streetTooLong
  else if 16 < goLen sa.buildingNumber then some VErr.buildingTooLong
  else if 16 < goLen sa.postCode then some VErr.postCodeTooLong
  else if 35 < goLen sa.townName then some VErr.townTooLong
  else none

/-- `Entity.Validate`: an entirely empty record passes; otherwise the
name, country code and address are checked in the source order. -/
def Entity.Validate (e : Entity) : Option VErr :=
  if e.name = "" ∧ e.address = none ∧ e.countryCode = "" then none
  else if e.name = "" then some VErr.nameEmpty
  else if 70 < goLen e.name then some VErr.nameTooLong
  else match ValidateCharacterSet e.name with
  | some err => some err
  | none =>
  if e.countryCode = "" then some VErr.countryMissing
  else if 2 < e.countryCode.data.length then some VErr.countryNotTwoLetters
  else if ¬ countryCodes.contains e.countryCode then some VErr.invalidCountry
  else match e.address with
  | some (Address.combined ca) => ca.Validate
  | some (Address.structured sa) => sa.Validate
  | _ => some VErr.unsupportedAddressType

/-- `PaymentAmount.Validate`. -/
def PaymentAmount.Validate (pa : PaymentAmount) : Option VErr :=
  if pa.currency ≠ "CHF" ∧ pa.currency ≠ "EUR" then some VErr.currencyInvalid
  else if pa.amount < 0 then some VErr.amountNegative
  else if 12 < goLen (formatFixed2 pa.amount) then some VErr.amountTooLarge
  else none

/-- `PaymentReference.Validate`: nil, creditor reference and QR reference
number are fine, any other implementation of the interface is rejected. -/
def PaymentReference.Validate (r : PaymentReference) : Option VErr :=
  match r.number with
  | none => none
  | some (RefNumber.scor _) => none
  | some (RefNumber.qr _) => none
  | some RefNumber.unknown => some VErr.unknownReferenceType

/-- `PaymentInformation.Validate`. -/
def PaymentInformation.Validate (pi : PaymentInformation) : Option VErr :=
  match ValidateCharacterSet pi.unstructuredMessage with
  | some e => some e
  | none =>
  match pi.structuredMessage.Validate with
  | some e => some e
  | none =>
  if 140 < goLen (pi.unstructuredMessage ++ pi.structuredMessage.ToString) then
    some VErr.combinedTooLong
  else none

/-- The per-element loop of `AlternativeProcedures.Validate`. -/
def apLoop : List AlternativeProcedure → Option VErr
  | [] => none
  | ap :: rest =>
    match ValidateCharacterSet ap.label with
    | some e => some e
    | none =>
    match ValidateCharacterSet ap.procedure with
    | some e => some e
    | none =>
    if ap.label = "" then some VErr.noLabel
    else if ap.procedure = "" then some VErr.noProcedure
    else if 100 < goLen ap.procedure then some VErr.procedureTooLong
    else apLoop rest

/-- `AlternativeProcedures.Validate`. -/
def AlternativeProcedures.Validate (vec : List AlternativeProcedure) : Option VErr :=
  if 2 < vec.length then some VErr.tooManyAltProcedures else apLoop vec

/-- Result of `Payload.Validate`: success, a reportable error, or a
run-time panic (the Go slice expression `p.Account.IBAN.BBAN[:2]` panics
when the IBAN pointer is nil or the BBAN has fewer than two bytes). -/
inductive VResult where
  | ok
  | err (e : VErr)
  | panic
  deriving DecidableEq, Repr

/-- Sequence a sub-validator in front of a continuation, mirroring the Go
pattern `if err := x.Validate(); err != nil { return err }`. -/
def vseq (r : Option VErr) (k : VResult) : VResult :=
  match r with
  | some e => VResult.err e
  | none => k

/-- Whether the first two bytes of `s` are the two ASCII characters `a`
and `b`.  Go compares the byte slice `s[:2]` against a two-ASCII-byte
literal; that equality holds iff the first two runes of `s` are exactly
`a` and `b` (a multi-byte first or second rune yields non-ASCII bytes in
`s[:2]`, which cannot match). -/
def firstTwoIs (s : String) (a b : Char) : Bool :=
  match s.data with
  | c1 :: c2 :: _ => c1 = a ∧ c2 = b
  | _ => false

/-- The QR-IBAN test of `validate.go` line 62: the BBAN starts with the
bytes `30` or `31`. -/
def isQRIBAN (ib : IBAN) : Bool :=
  firstTwoIs ib.bban '3' '0' ∨ firstTwoIs ib.bban '3' '1'

/-- Whether a reference interface value is a `*structref.ReferenceNumber`
(the QR reference variant). -/
def isQRRef : Option RefNumber → Bool
  | some (RefNumber.qr _) => true
  | _ => false

/-- `Payload.Validate`, transcribed from `validate.go`: the eight
sub-validators in order, then the creditor-name and ultimate-creditor
rules, then the cross-field QR-IBAN/reference rule.  Evaluating
`p.Account.IBAN.BBAN[:2]` panics when the IBAN is nil (unreachable, since
`AccountNumber.Validate` fails first) or when the BBAN is shorter than
two bytes. -/
def Payload.Validate (p : Payload) : VResult :=
  vseq p.account.Validate (
  vseq p.creditor.Validate (
  vseq p.ultimateCreditor.Validate (
  vseq p.currencyAmount.Validate (
  vseq p.ultimateDebtor.Validate (
  vseq p.reference.Validate (
  vseq p.additionalInformation.Validate (
  vseq (AlternativeProcedures.Validate p.alternativeProcedureParameters) (
  if p.creditor.name = "" then VResult.err VErr.noCreditorName
  else if p.ultimateCreditor.name ≠ "" then VResult.err VErr.ultimateCreditorNotSupported
  else match p.account.iban with
  | none => VResult.panic
  | some ib =>
    if goLen ib.bban < 2 then VResult.panic
    else if isQRIBAN ib then
      match p.reference.number with
      | some (RefNumber.qr _) => VResult.ok
      | _ => VResult.err VErr.qrReferenceRequired
    else
      match p.reference.number with
      | some (RefNumber.qr _) => VResult.err VErr.qrReferenceNotAllowed
      | _ => VResult.ok))))))))

/-! ## Wire-format serialization (`serialize.go` / `part_009`).

The Go functions write to an `io.Writer`; the model accumulates the
written bytes in a `String`.  I/O failures of the writer are not
modelled; run-time panics (nil dereference, out-of-range index) are
modelled as `none` / a `panic` result. -/

/-- Serialization of an address (`CombinedAddress.Serialize` /
`StructuredAddress.Serialize`): the type tag, the entity name and the
four address lines, CRLF-joined.  A foreign `qrAddress` implementation
is modelled as writing nothing (the only such implementation in the code
base, the test-only `testAddress`, writes nothing; this branch is
unreachable for validated payloads). -/
def addrSerialize : Address → String → String
  | Address.combined ca, name =>
    String.intercalate ("\r\n") ["K", name, ca.addressLine1, ca.addressLine2, "", ""]
  | Address.structured sa, name =>
    String.intercalate ("\r\n") ["S", name, sa.streetName, sa.buildingNumber, sa.postCode, sa.townName]
  | Address.other, _ => ""

/-- `Entity.Serialize`: six empty CRLF-separated slots for an empty
entity (no country code appended); otherwise the address record followed
by the country code.  Calling `Serialize` on a nil address interface
panics (`none`). -/
def Entity.Serialize (e : Entity) : Option String :=
  if e.name = "" then some ("\r\n\r\n\r\n\r\n\r\n\r\n")
  else match e.address with
  | none => none
  | some a => some (addrSerialize a e.name ++ "\r\n" ++ e.countryCode)

/-- `PaymentAmount.Serialize`: the amount fixed to two decimals when
positive (empty otherwise), then CRLF and the currency. -/
def PaymentAmount.Serialize (pa : PaymentAmount) : String :=
  (if 0 < pa.amount then formatFixed2 pa.amount else "") ++ "\r\n" ++ pa.currency

/-- `PaymentReference.Serialize`: tag line and digital format.  The Go
switch has no default case, so a foreign reference implementation writes
nothing. -/
def PaymentReference.Serialize (pr : PaymentReference) : String :=
  match pr.number with
  | some (RefNumber.qr d) => "QRR\r\n" ++ d
  | some (RefNumber.scor d) => "SCOR\r\n" ++ d
  | none => "NON\r\n"
  | some RefNumber.unknown => ""

/-- `PaymentInformation.Serialize`. -/
def PaymentInformation.Serialize (pi : PaymentInformation) : String :=
  pi.unstructuredMessage ++ "\r\nEPD\r\n" ++ pi.structuredMessage.ToString

/-- The assignment loop of `AlternativeProcedures.Serialize` writing
`apJoin[i] = ap.Procedure` over a two-slot array; an index beyond 1
panics (`none`). -/
def apSlots : List AlternativeProcedure → Nat → String × String → Option (String × String)
  | [], _, acc => some acc
  | ap :: rest, 0, (_, b) => apSlots rest 1 (ap.procedure, b)
  | ap :: rest, 1, (a, _) => apSlots rest 2 (a, ap.procedure)
  | _ :: _, _, _ => none

/-- `AlternativeProcedures.Serialize`: a fixed two-slot array filled from
the entries, CRLF-joined. -/
def AlternativeProcedures.Serialize (vec : List AlternativeProcedure) : Option String :=
  (apSlots vec 0 ("", "")).map (fun ab => ab.1 ++ "\r\n" ++ ab.2)

/-- The pure wire format of a payload: the header and the eight
CRLF-separated field groups, in the source order of
`Payload.Serialize`.  `none` models a run-time panic in one of the field
serializers. -/
def Payload.payloadText (p : Payload) : Option String :=
  match p.account.iban with
  | none => none
  | some ib =>
    match p.creditor.Serialize, p.ultimateCreditor.Serialize,
          p.ultimateDebtor.Serialize,
          AlternativeProcedures.Serialize p.alternativeProcedureParameters with
    | some cr, some uc, some ud, some ap =>
      some ("SPC\r\n0200\r\n1\r\n" ++ ib.code ++ "\r\n" ++ cr ++ "\r\n" ++ uc
        ++ "\r\n" ++ p.currencyAmount.Serialize ++ "\r\n" ++ ud ++ "\r\n"
        ++ p.reference.Serialize ++ "\r\n" ++ p.additionalInformation.Serialize
        ++ "\r\n" ++ ap)
    | _, _, _, _ => none

/-- Result of `Payload.Serialize`: the written wire format, a validation
error, or a run-time panic. -/
inductive SResult where
  | ok (s : String)
  | error (e : VErr)
  | panic
  deriving DecidableEq, Repr

/-- `Payload.Serialize`: the payload is validated first and the
validation error returned on failure; on success the wire format is
written. -/
def Payload.Serialize (p : Payload) : SResult :=
  match p.Validate with
  | VResult.err e => SResult.error e
  | VResult.panic => SResult.panic
  | VResult.ok =>
    match p.payloadText with
    | some s => SResult.ok s
    | none => SResult.panic

/-! ## Glyph widths and text layout (`helvetica.go` / `reflow.go`, `part_008`) -/

/-- The Helvetica regular glyph-width table `regularWX`, as an
association list, widths relative to point size (exact rationals for the
`float64` literals of the source). -/
def regularWX : List (Char × ℚ) :=
 [(Char.ofNat 0x0020, (278/1000 : ℚ)),
  (Char.ofNat 0x0021, (278/1000 : ℚ)),
  (Char.ofNat 0x0022, (355/1000 : ℚ)),
  (Char.ofNat 0x0023, (556/1000 : ℚ)),
  (Char.ofNat 0x0024, (556/1000 : ℚ)),
  (Char.ofNat 0x0025, (889/1000 : ℚ)),
  (Char.ofNat 0x0026, (667/1000 : ℚ)),
  (Char.ofNat 0x0027, (191/1000 : ℚ)),
  (Char.ofNat 0x0028, (333/1000 : ℚ)),
  (Char.ofNat 0x0029, (333/1000 : ℚ)),
  (Char.ofNat 0x002A, (389/1000 : ℚ)),
  (Char.ofNat 0x002B, (584/1000 : ℚ)),
  (Char.ofNat 0x002C, (278/1000 : ℚ)),
  (Char.ofNat 0x002D, (333/1000 : ℚ)),
  (Char.ofNat 0x002E, (278/1000 : ℚ)),
  (Char.ofNat 0x002F, (278/1000 : ℚ)),
  (Char.ofNat 0x0030, (556/1000 : ℚ)),
  (Char.ofNat 0x0031, (556/1000 : ℚ)),
  (Char.ofNat 0x0032, (556/1000 : ℚ)),
  (Char.ofNat 0x0033, (556/1000 : ℚ)),
  (Char.ofNat 0x0034, (556/1000 : ℚ)),
  (Char.ofNat 0x0035, (556/1000 : ℚ)),
  (Char.ofNat 0x0036, (556/1000 : ℚ)),
  (Char.ofNat 0x0037, (556/1000 : ℚ)),
  (Char.ofNat 0x0038, (556/1000 : ℚ)),
  (Char.ofNat 0x0039, (556/1000 : ℚ)),
  (Char.ofNat 0x003A, (278/1000 : ℚ)),
  (Char.ofNat 0x003B, (278/1000 : ℚ)),
  (Char.ofNat 0x003C, (584/1000 : ℚ)),
  (Char.ofNat 0x003D, (584/1000 : ℚ)),
  (Char.ofNat 0x003E, (584/1000 : ℚ)),
  (Char.ofNat 0x003F, (556/1000 : ℚ)),
  (Char.ofNat 0x0040, (1015/1000 : ℚ)),
  (Char.ofNat 0x0041, (667/1000 : ℚ)),
  (Char.ofNat 0x0042, (667/1000 : ℚ)),
  (Char.ofNat 0x0043, (722/1000 : ℚ)),
  (Char.ofNat 0x0044, (722/1000 : ℚ)),
  (Char.ofNat 0x0045, (667/1000 : ℚ)),
  (Char.ofNat 0x0046, (611/1000 : ℚ)),
  (Char.ofNat 0x0047, (778/1000 : ℚ)),
  (Char.ofNat 0x0048, (722/1000 : ℚ)),
  (Char.ofNat 0x0049, (278/1000 : ℚ)),
  (Char.ofNat 0x004A, (500/1000 : ℚ)),
  (Char.ofNat 0x004B, (667/1000 : ℚ)),
  (Char.ofNat 0x004C, (556/1000 : ℚ)),
  (Char.ofNat 0x004D, (833/1000 : ℚ)),
  (Char.ofNat 0x004E, (722/1000 : ℚ)),
  (Char.ofNat 0x004F, (778/1000 : ℚ)),
  (Char.ofNat 0x0050, (667/1000 : ℚ)),
  (Char.ofNat 0x0051, (778/1000 : ℚ)),
  (Char.ofNat 0x0052, (722/1000 : ℚ)),
  (Char.ofNat 0x0053, (667/1000 : ℚ)),
  (Char.ofNat 0x0054, (611/1000 : ℚ)),
  (Char.ofNat 0x0055, (722/1000 : ℚ)),
  (Char.ofNat 0x0056, (667/1000 : ℚ)),
  (Char.ofNat 0x0057, (944/1000 : ℚ)),
  (Char.ofNat 0x0058, (667/1000 : ℚ)),
  (Char.ofNat 0x0059, (667/1000 : ℚ)),
  (Char.ofNat 0x005A, (611/1000 : ℚ)),
  (Char.ofNat 0x005B, (278/1000 : ℚ)),
  (Char.ofNat 0x005C, (278/1000 : ℚ)),
  (Char.ofNat 0x005D, (278/1000 : ℚ)),
  (Char.ofNat 0x005E, (469/1000 : ℚ)),
  (Char.ofNat 0x005F, (556/1000 : ℚ)),
  (Char.ofNat 0x0060, (333/1000 : ℚ)),
  (Char.ofNat 0x0061, (556/1000 : ℚ)),
  (Char.ofNat 0x0062, (556/1000 : ℚ)),
  (Char.ofNat 0x0063, (500/1000 : ℚ)),
  (Char.ofNat 0x0064, (556/1000 : ℚ)),
  (Char.ofNat 0x0065, (556/1000 : ℚ)),
  (Char.ofNat 0x0066, (278/1000 : ℚ)),
  (Char.ofNat 0x0067, (556/1000 : ℚ)),
  (Char.ofNat 0x0068, (556/1000 : ℚ)),
  (Char.ofNat 0x0069, (222/1000 : ℚ)),
  (Char.ofNat 0x006A, (222/1000 : ℚ)),
  (Char.ofNat 0x006B, (500/1000 : ℚ)),
  (Char.ofNat 0x006C, (222/1000 : ℚ)),
  (Char.ofNat 0x006D, (833/1000 : ℚ)),
  (Char.ofNat 0x006E, (556/1000 : ℚ)),
  (Char.ofNat 0x006F, (556/1000 : ℚ)),
  (Char.ofNat 0x0070, (556/1000 : ℚ)),
  (Char.ofNat 0x0071, (556/1000 : ℚ)),
  (Char.ofNat 0x0072, (333/1000 : ℚ)),
  (Char.ofNat 0x0073, (500/1000 : ℚ)),
  (Char.ofNat 0x0074, (278/1000 : ℚ)),
  (Char.ofNat 0x0075, (556/1000 : ℚ)),
  (Char.ofNat 0x0076, (500/1000 : ℚ)),
  (Char.ofNat 0x0077, (722/1000 : ℚ)),
  (Char.ofNat 0x0078, (500/1000 : ℚ)),
  (Char.ofNat 0x0079, (500/1000 : ℚ)),
  (Char.ofNat 0x007A, (500/1000 : ℚ)),
  (Char.ofNat 0x007B, (334/1000 : ℚ)),
  (Char.ofNat 0x007C, (260/1000 : ℚ)),
  (Char.ofNat 0x007D, (334/1000 : ℚ)),
  (Char.ofNat 0x007E, (584/1000 : ℚ)),
  (Char.ofNat 0x00A1, (333/1000 : ℚ)),
  (Char.ofNat 0x00A2, (556/1000 : ℚ)),
  (Char.ofNat 0x00A3, (556/1000 : ℚ)),
  (Char.ofNat 0x00A4, (556/1000 : ℚ)),
  (Char.ofNat 0x00A5, (556/1000 : ℚ)),
  (Char.ofNat 0x00A6, (260/1000 : ℚ)),
  (Char.ofNat 0x00A7, (556/1000 : ℚ)),
  (Char.ofNat 0x00A8, (333/1000 : ℚ)),
  (Char.ofNat 0x00A9, (737/1000 : ℚ)),
  (Char.ofNat 0x00AA, (370/1000 : ℚ)),
  (Char.ofNat 0x00AB, (556/1000 : ℚ)),
  (Char.ofNat 0x00AC, (584/1000 : ℚ)),
  (Char.ofNat 0x00AE, (737/1000 : ℚ)),
  (Char.ofNat 0x00AF, (333/1000 : ℚ)),
  (Char.ofNat 0x00B0, (400/1000 : ℚ)),
  (Char.ofNat 0x00B1, (584/1000 : ℚ)),
  (Char.ofNat 0x00B2, (333/1000 : ℚ)),
  (Char.ofNat 0x00B3, (333/1000 : ℚ)),
  (Char.ofNat 0x00B4, (333/1000 : ℚ)),
  (Char.ofNat 0x00B5, (556/1000 : ℚ)),
  (Char.ofNat 0x00B6, (537/1000 : ℚ)),
  (Char.ofNat 0x00B7, (278/1000 : ℚ)),
  (Char.ofNat 0x00B8, (333/1000 : ℚ)),
  (Char.ofNat 0x00B9, (333/1000 : ℚ)),
  (Char.ofNat 0x00BA, (365/1000 : ℚ)),
  (Char.ofNat 0x00BB, (556/1000 : ℚ)),
  (Char.ofNat 0x00BC, (834/1000 : ℚ)),
  (Char.ofNat 0x00BD, (834/1000 : ℚ)),
  (Char.ofNat 0x00BE, (834/1000 : ℚ)),
  (Char.ofNat 0x00BF, (611/1000 : ℚ)),
  (Char.ofNat 0x00C0, (667/1000 : ℚ)),
  (Char.ofNat 0x00C1, (667/1000 : ℚ)),
  (Char.ofNat 0x00C2, (667/1000 : ℚ)),
  (Char.ofNat 0x00C3, (667/1000 : ℚ)),
  (Char.ofNat 0x00C4, (667/1000 : ℚ)),
  (Char.ofNat 0x00C5, (667/1000 : ℚ)),
  (Char.ofNat 0x00C6, (1000/1000 : ℚ)),
  (Char.ofNat 0x00C7, (722/1000 : ℚ)),
  (Char.ofNat 0x00C8, (667/1000 : ℚ)),
  (Char.ofNat 0x00C9, (667/1000 : ℚ)),
  (Char.ofNat 0x00CA, (667/1000 : ℚ)),
  (Char.ofNat 0x00CB, (667/1000 : ℚ)),
  (Char.ofNat 0x00CC, (278/1000 : ℚ)),
  (Char.ofNat 0x00CD, (278/1000 : ℚ)),
  (Char.ofNat 0x00CE, (278/1000 : ℚ)),
  (Char.ofNat 0x00CF, (278/1000 : ℚ)),
  (Char.ofNat 0x00D0, (722/1000 : ℚ)),
  (Char.ofNat 0x00D1, (722/1000 : ℚ)),
  (Char.ofNat 0x00D2, (778/1000 : ℚ)),
  (Char.ofNat 0x00D3, (778/1000 : ℚ)),
  (Char.ofNat 0x00D4, (778/1000 : ℚ)),
  (Char.ofNat 0x00D5, (778/1000 : ℚ)),
  (Char.ofNat 0x00D6, (778/1000 : ℚ)),
  (Char.ofNat 0x00D7, (584/1000 : ℚ)),
  (Char.ofNat 0x00D8, (778/1000 : ℚ)),
  (Char.ofNat 0x00D9, (722/1000 : ℚ)),
  (Char.ofNat 0x00DA, (722/1000 : ℚ)),
  (Char.ofNat 0x00DB, (722/1000 : ℚ)),
  (Char.ofNat 0x00DC, (722/1000 : ℚ)),
  (Char.ofNat 0x00DD, (667/1000 : ℚ)),
  (Char.ofNat 0x00DE, (667/1000 : ℚ)),
  (Char.ofNat 0x00DF, (611/1000 : ℚ)),
  (Char.ofNat 0x00E0, (556/1000 : ℚ)),
  (Char.ofNat 0x00E1, (556/1000 : ℚ)),
  (Char.ofNat 0x00E2, (556/1000 : ℚ)),
  (Char.ofNat 0x00E3, (556/1000 : ℚ)),
  (Char.ofNat 0x00E4, (556/1000 : ℚ)),
  (Char.ofNat 0x00E5, (556/1000 : ℚ)),
  (Char.ofNat 0x00E6, (889/1000 : ℚ)),
  (Char.ofNat 0x00E7, (500/1000 : ℚ)),
  (Char.ofNat 0x00E8, (556/1000 : ℚ)),
  (Char.ofNat 0x00E9, (556/1000 : ℚ)),
  (Char.ofNat 0x00EA, (556/1000 : ℚ)),
  (Char.ofNat 0x00EB, (556/1000 : ℚ)),
  (Char.ofNat 0x00EC, (278/1000 : ℚ)),
  (Char.ofNat 0x00ED, (278/1000 : ℚ)),
  (Char.ofNat 0x00EE, (278/1000 : ℚ)),
  (Char.ofNat 0x00EF, (278/1000 : ℚ)),
  (Char.ofNat 0x00F0, (556/1000 : ℚ)),
  (Char.ofNat 0x00F1, (556/1000 : ℚ)),
  (Char.ofNat 0x00F2, (556/1000 : ℚ)),
  (Char.ofNat 0x00F3, (556/1000 : ℚ)),
  (Char.ofNat 0x00F4, (556/1000 : ℚ)),
  (Char.ofNat 0x00F5, (556/1000 : ℚ)),
  (Char.ofNat 0x00F6, (556/1000 : ℚ)),
  (Char.ofNat 0x00F7, (584/1000 : ℚ)),
  (Char.ofNat 0x00F8, (611/1000 : ℚ)),
  (Char.ofNat 0x00F9, (556/1000 : ℚ)),
  (Char.ofNat 0x00FA, (556/1000 : ℚ)),
  (Char.ofNat 0x00FB, (556/1000 : ℚ)),
  (Char.ofNat 0x00FC, (556/1000 : ℚ)),
  (Char.ofNat 0x00FD, (500/1000 : ℚ)),
  (Char.ofNat 0x00FE, (556/1000 : ℚ)),
  (Char.ofNat 0x00FF, (500/1000 : ℚ)),
  (Char.ofNat 0x0100, (667/1000 : ℚ)),
  (Char.ofNat 0x0101, (556/1000 : ℚ)),
  (Char.ofNat 0x0102, (667/1000 : ℚ)),
  (Char.ofNat 0x0103, (556/1000 : ℚ)),
  (Char.ofNat 0x0104, (667/1000 : ℚ)),
  (Char.ofNat 0x0105, (556/1000 : ℚ)),
  (Char.ofNat 0x0106, (722/1000 : ℚ)),
  (Char.ofNat 0x0107, (500/1000 : ℚ)),
  (Char.ofNat 0x010C, (722/1000 : ℚ)),
  (Char.ofNat 0x010D, (500/1000 : ℚ)),
  (Char.ofNat 0x010E, (722/1000 : ℚ)),
  (Char.ofNat 0x010F, (643/1000 : ℚ)),
  (Char.ofNat 0x0110, (722/1000 : ℚ)),
  (Char.ofNat 0x0111, (556/1000 : ℚ)),
  (Char.ofNat 0x0112, (667/1000 : ℚ)),
  (Char.ofNat 0x0113, (556/1000 : ℚ)),
  (Char.ofNat 0x0116, (667/1000 : ℚ)),
  (Char.ofNat 0x0117, (556/1000 : ℚ)),
  (Char.ofNat 0x0118, (667/1000 : ℚ)),
  (Char.ofNat 0x0119, (556/1000 : ℚ)),
  (Char.ofNat 0x011A, (667/1000 : ℚ)),
  (Char.ofNat 0x011B, (556/1000 : ℚ)),
  (Char.ofNat 0x011E, (778/1000 : ℚ)),
  (Char.ofNat 0x011F, (556/1000 : ℚ)),
  (Char.ofNat 0x0122, (778/1000 : ℚ)),
  (Char.ofNat 0x0123, (556/1000 : ℚ)),
  (Char.ofNat 0x012A, (278/1000 : ℚ)),
  (Char.ofNat 0x012B, (278/1000 : ℚ)),
  (Char.ofNat 0x012E, (278/1000 : ℚ)),
  (Char.ofNat 0x012F, (222/1000 : ℚ)),
  (Char.ofNat 0x0130, (278/1000 : ℚ)),
  (Char.ofNat 0x0131, (278/1000 : ℚ)),
  (Char.ofNat 0x0136, (667/1000 : ℚ)),
  (Char.ofNat 0x0137, (500/1000 : ℚ)),
  (Char.ofNat 0x0139, (556/1000 : ℚ)),
  (Char.ofNat 0x013A, (222/1000 : ℚ)),
  (Char.ofNat 0x013B, (556/1000 : ℚ)),
  (Char.ofNat 0x013C, (222/1000 : ℚ)),
  (Char.ofNat 0x013D, (556/1000 : ℚ)),
  (Char.ofNat 0x013E, (299/1000 : ℚ)),
  (Char.ofNat 0x0141, (556/1000 : ℚ)),
  (Char.ofNat 0x0142, (222/1000 : ℚ)),
  (Char.ofNat 0x0143, (722/1000 : ℚ)),
  (Char.ofNat 0x0144, (556/1000 : ℚ)),
  (Char.ofNat 0x0145, (722/1000 : ℚ)),
  (Char.ofNat 0x0146, (556/1000 : ℚ)),
  (Char.ofNat 0x0147, (722/1000 : ℚ)),
  (Char.ofNat 0x0148, (556/1000 : ℚ)),
  (Char.ofNat 0x014C, (778/1000 : ℚ)),
  (Char.ofNat 0x014D, (556/1000 : ℚ)),
  (Char.ofNat 0x0150, (778/1000 : ℚ)),
  (Char.ofNat 0x0151, (556/1000 : ℚ)),
  (Char.ofNat 0x0152, (1000/1000 : ℚ)),
  (Char.ofNat 0x0153, (944/1000 : ℚ)),
  (Char.ofNat 0x0154, (722/1000 : ℚ)),
  (Char.ofNat 0x0155, (333/1000 : ℚ)),
  (Char.ofNat 0x0156, (722/1000 : ℚ)),
  (Char.ofNat 0x0157, (333/1000 : ℚ)),
  (Char.ofNat 0x0158, (722/1000 : ℚ)),
  (Char.ofNat 0x0159, (333/1000 : ℚ)),
  (Char.ofNat 0x015A, (667/1000 : ℚ)),
  (Char.ofNat 0x015B, (500/1000 : ℚ)),
  (Char.ofNat 0x015E, (667/1000 : ℚ)),
  (Char.ofNat 0x015F, (500/1000 : ℚ)),
  (Char.ofNat 0x0160, (667/1000 : ℚ)),
  (Char.ofNat 0x0161, (500/1000 : ℚ)),
  (Char.ofNat 0x0162, (611/1000 : ℚ)),
  (Char.ofNat 0x0163, (278/1000 : ℚ)),
  (Char.ofNat 0x0164, (611/1000 : ℚ)),
  (Char.ofNat 0x0165, (317/1000 : ℚ)),
  (Char.ofNat 0x016A, (722/1000 : ℚ)),
  (Char.ofNat 0x016B, (556/1000 : ℚ)),
  (Char.ofNat 0x016E, (722/1000 : ℚ)),
  (Char.ofNat 0x016F, (556/1000 : ℚ)),
  (Char.ofNat 0x0170, (722/1000 : ℚ)),
  (Char.ofNat 0x0171, (556/1000 : ℚ)),
  (Char.ofNat 0x0172, (722/1000 : ℚ)),
  (Char.ofNat 0x0173, (556/1000 : ℚ)),
  (Char.ofNat 0x0178, (667/1000 : ℚ)),
  (Char.ofNat 0x0179, (611/1000 : ℚ)),
  (Char.ofNat 0x017A, (500/1000 : ℚ)),
  (Char.ofNat 0x017B, (611/1000 : ℚ)),
  (Char.ofNat 0x017C, (500/1000 : ℚ)),
  (Char.ofNat 0x017D, (611/1000 : ℚ)),
  (Char.ofNat 0x017E, (500/1000 : ℚ)),
  (Char.ofNat 0x0192, (556/1000 : ℚ)),
  (Char.ofNat 0x0218, (667/1000 : ℚ)),
  (Char.ofNat 0x0219, (500/1000 : ℚ)),
  (Char.ofNat 0x02C6, (333/1000 : ℚ)),
  (Char.ofNat 0x02C7, (333/1000 : ℚ)),
  (Char.ofNat 0x02D8, (333/1000 : ℚ)),
  (Char.ofNat 0x02D9, (333/1000 : ℚ)),
  (Char.ofNat 0x02DA, (333/1000 : ℚ)),
  (Char.ofNat 0x02DB, (333/1000 : ℚ)),
  (Char.ofNat 0x02DC, (333/1000 : ℚ)),
  (Char.ofNat 0x02DD, (333/1000 : ℚ)),
  (Char.ofNat 0x2013, (556/1000 : ℚ)),
  (Char.ofNat 0x2014, (1000/1000 : ℚ)),
  (Char.ofNat 0x2018, (222/1000 : ℚ)),
  (Char.ofNat 0x2019, (222/1000 : ℚ)),
  (Char.ofNat 0x201A, (222/1000 : ℚ)),
  (Char.ofNat 0x201C, (333/1000 : ℚ)),
  (Char.ofNat 0x201D, (333/1000 : ℚ)),
  (Char.ofNat 0x201E, (333/1000 : ℚ)),
  (Char.ofNat 0x2020, (556/1000 : ℚ)),
  (Char.ofNat 0x2021, (556/1000 : ℚ)),
  (Char.ofNat 0x2022, (350/1000 : ℚ)),
  (Char.ofNat 0x2026, (1000/1000 : ℚ)),
  (Char.ofNat 0x2030, (1000/1000 : ℚ)),
  (Char.ofNat 0x2039, (333/1000 : ℚ)),
  (Char.ofNat 0x203A, (333/1000 : ℚ)),
  (Char.ofNat 0x2044, (167/1000 : ℚ)),
  (Char.ofNat 0x20AC, (556/1000 : ℚ)),
  (Char.ofNat 0x2122, (1000/1000 : ℚ)),
  (Char.ofNat 0x2202, (476/1000 : ℚ)),
  (Char.ofNat 0x2206, (612/1000 : ℚ)),
  (Char.ofNat 0x2211, (600/1000 : ℚ)),
  (Char.ofNat 0x2212, (584/1000 : ℚ)),
  (Char.ofNat 0x221A, (453/1000 : ℚ)),
  (Char.ofNat 0x2260, (549/1000 : ℚ)),
  (Char.ofNat 0x2264, (549/1000 : ℚ)),
  (Char.ofNat 0x2265, (549/1000 : ℚ)),
  (Char.ofNat 0x25CA, (471/1000 : ℚ)),
  (Char.ofNat 0xF6C3, (250/1000 : ℚ)),
  (Char.ofNat 0xFB01, (500/1000 : ℚ)),
  (Char.ofNat 0xFB02, (500/1000 : ℚ))]

/-- Map lookup `regularWX[r]` returning the hit, if any. -/
def wxFind (c : Char) : Option ℚ :=
  (regularWX.find? (fun p => p.1 = c)).map (fun p => p.2)

/-- The per-rune width used throughout the layout code: the table entry,
or the default 1.0 for unmapped runes. -/
def charW (c : Char) : ℚ := (wxFind c).getD 1

/-- Width of a list of runes (helper for `stringWidth`). -/
def listWidth (l : List Char) : ℚ := l.foldl (fun a c => a + charW c) 0

/-- `stringWidth`: the width of `s` in Helvetica regular, relative to
point size. -/
def stringWidth (s : String) : ℚ := listWidth s.data

/-- `spaceWidth, _ := regularWX[' ']` from `reflowAtSpace`: the table
entry for the space rune, defaulting to the zero value on a miss. -/
def spaceWidth : ℚ := (wxFind ' ').getD 0

/-- Go `unicode.IsSpace` on the characters that occur in Latin-1:
space, tab, newline, vertical tab, form feed, carriage return, NEL and
non-breaking space. -/
def goIsSpace (c : Char) : Bool :=
  c = ' ' ∨ c = Char.ofNat 0x9 ∨ c = Char.ofNat 0xA ∨ c = Char.ofNat 0xB ∨
  c = Char.ofNat 0xC ∨ c = Char.ofNat 0xD ∨ c = Char.ofNat 0x85 ∨ c = Char.ofNat 0xA0

/-- Splitting loop of Go `strings.Fields`: accumulate the current word
(in reverse) and emit it at each whitespace run or at the end. -/
def fieldsLoop : List Char → List Char → List (List Char)
  | [], acc => if acc = [] then [] else [acc.reverse]
  | c :: rest, acc =>
    if goIsSpace c then
      if acc = [] then fieldsLoop rest [] else acc.reverse :: fieldsLoop rest []
    else fieldsLoop rest (c :: acc)

/-- Go `strings.Fields`: the whitespace-separated words of `s`, with no
empty words. -/
def goFields (s : String) : List String :=
  (fieldsLoop s.data []).map (fun l => String.mk l)

/-- The mutable state of the reflow loops: the lines flushed so far, the
line being accumulated, and its running width. -/
structure ReflowSt where
  out : List String
  cur : String
  curW : ℚ
  deriving DecidableEq, Repr

/-- One iteration of the per-rune loop shared by `reflowAtRune` and the
fallback inside `reflowAtSpace`: flush the current line if adding the
rune would exceed the maximum width, then append the rune. -/
def runeStep (maxW : ℚ) (st : ReflowSt) (r : Char) : ReflowSt :=
  if maxW < st.curW + charW r then
    ReflowSt.mk (st.out ++ [st.cur]) (String.push "" r) (0 + charW r)
  else
    ReflowSt.mk st.out (st.cur.push r) (st.curW + charW r)

/-- One iteration of the per-word loop of `reflowAtSpace`: a word wider
than the maximum width is emitted rune by rune (after appending the
separating space, unchecked, if a line is in progress); otherwise the
word is packed greedily, flushing first when the word plus a space would
overflow. -/
def wordStep (maxW : ℚ) (st : ReflowSt) (word : String) : ReflowSt :=
  if maxW < stringWidth word then
    if st.cur ≠ "" then
      word.data.foldl (runeStep maxW)
        (ReflowSt.mk st.out (st.cur ++ " ") (st.curW + spaceWidth))
    else
      word.data.foldl (runeStep maxW) st
  else
    if st.cur ≠ "" then
      if maxW < st.curW + spaceWidth + stringWidth word then
        ReflowSt.mk (st.out ++ [st.cur]) ("" ++ word) (0 + stringWidth word)
      else
        ReflowSt.mk st.out ((st.cur ++ " ") ++ word) ((st.curW + spaceWidth) + stringWidth word)
    else
      ReflowSt.mk st.out (st.cur ++ word) (st.curW + stringWidth word)

/-- Processing of one input line by `reflowAtSpace`, with `acc` the lines
flushed so far: a line narrower than the maximum width is kept
unchanged, anything else is split into words and repacked. -/
def reflowLine (maxW : ℚ) (acc : List String) (line : String) : List String :=
  if stringWidth line < maxW then acc ++ [line]
  else
    let fin := (goFields line).foldl (wordStep maxW) (ReflowSt.mk acc "" 0)
    fin.out ++ [fin.cur]

/-- `reflowAtSpace` from the Go source: word-preserving reflow of a list
of lines to a maximum width. -/
def reflowAtSpace (lines : List String) (maxW : ℚ) : List String :=
  lines.foldl (reflowLine maxW) []

/-- Per-line reflow result in isolation (the contribution of one input
line to the output of `reflowAtSpace`). -/
def processLine (maxW : ℚ) (line : String) : List String := reflowLine maxW [] line

/-- The ellipsis glyph appended by `shortenToWidth`. -/
def ellipsisStr : String := "…"

/-- The scanning loop of `shortenToWidth`: return early with the
shortened prefix and the ellipsis once the next rune together with the
ellipsis would overflow; if every rune is consumed, return the original
line. -/
def shortenAux (line : String) (maxW : ℚ) : List Char → String → ℚ → String
  | [], _, _ => line
  | r :: rest, shortened, curW =>
    let w := charW r
    if maxW < curW + stringWidth ellipsisStr + w then shortened ++ ellipsisStr
    else shortenAux line maxW rest (shortened.push r) (curW + w)

/-- `shortenToWidth` from the Go source: truncate a line to a maximum
width, appending an ellipsis when anything is cut. -/
def shortenToWidth (line : String) (maxW : ℚ) : String :=
  shortenAux line maxW line.data "" 0

/-- All ways of concatenating a list of lines back into one string,
inserting either nothing or a single space at each line break.  The
spec's re-joining rule (a space where a break replaced a space, nothing
where a word was split mid-word) picks one of these. -/
def rejoined : List String → List String
  | [] => [""]
  | [l] => [l]
  | l :: ls => (rejoined ls).flatMap (fun t => [l ++ t, l ++ " " ++ t])

/-- A list of words joined by single spaces (the whitespace-normalized
form of an input line). -/
def joinWords : List String → String
  | [] => ""
  | [w] => w
  | w :: ws => w ++ " " ++ joinWords ws

/-- The width discipline that the lines emitted by `reflowAtSpace`
actually satisfy: within the maximum width; or a line that fit, plus the
separator space appended (unchecked) before a character-level fallback;
or a single rune that alone exceeds the maximum width (possibly followed
by that separator space). -/
def WidthOK (maxW : ℚ) (l : String) : Prop :=
  stringWidth l ≤ maxW ∨
  (∃ m, l = m ++ " " ∧ stringWidth m ≤ maxW) ∨
  (∃ c, (l.data = [c] ∨ l.data = [c, ' ']) ∧ maxW < charW c)

/-! ## Basic facts about the embedded definitions -/

theorem str_empty_append (s : String) : "" ++ s = s := by
  cases s
  rfl

/-- The scanning loop of the character-set guard returns the first rune
that is not in the allow-list. -/
theorem csLoop_eq_find (s0 : String) (l : List Char) :
    csLoop s0 l = (l.find? (fun c => !(validRunes.contains c))).map
      (fun c => VErr.charNotAllowed c s0) := by
  induction l with
  | nil => rfl
  | cons c rest ih =>
    cases h : validRunes.contains c
    · simp only [csLoop]
      rw [if_neg (by simpa using h), List.find?_cons_of_pos _ (by simpa using h)]
      rfl
    · simp only [csLoop]
      rw [if_pos h, List.find?_cons_of_neg _ (by simpa using h), ih]

theorem digitChar_isDigit : ∀ m, m < 10 → (Nat.digitChar m).isDigit = true := by decide

theorem natCharsAux_digits (fuel : Nat) :
    ∀ n, ∀ c ∈ natCharsAux fuel n, c.isDigit = true := by
  induction fuel with
  | zero =>
    intro n c hc
    exact absurd hc (List.not_mem_nil c)
  | succ fuel ih =>
    intro n c hc
    rw [natCharsAux] at hc
    split at hc
    · next h =>
      simp only [List.mem_singleton] at hc
      subst hc
      exact digitChar_isDigit n h
    · next h =>
      rcases List.mem_append.mp hc with h1 | h2
      · exact ih _ c h1
      · simp only [List.mem_singleton] at h2
        subst h2
        exact digitChar_isDigit _ (Nat.mod_lt _ (by omega))

theorem natChars_digits (n : Nat) : ∀ c ∈ natChars n, c.isDigit = true :=
  natCharsAux_digits (n + 1) n

/-- The fixed two-decimal formatter of a non-negative value always has
the shape `digits.d₁d₂`. -/
theorem formatFixed2_form (q : ℚ) (h : ¬ q < 0) :
    formatFixed2 q =
      natStr (round2 q / 100) ++ "." ++
        ⟨[Nat.digitChar (round2 q / 10 % 10), Nat.digitChar (round2 q % 10)]⟩ := by
  rw [formatFixed2, if_neg h]
  rfl

/-! ## Claim C3 -/

/-- C3: for all strings `s`, the character-set guard succeeds iff every
rune of `s` belongs to the allow-list, and on failure it reports the
first disallowed rune (in left-to-right order), identified by its code
point together with the original string. -/
theorem c3_character_set_guard (s : String) :
    (ValidateCharacterSet s = none ↔ ∀ c ∈ s.data, c ∈ validRunes) ∧
    ValidateCharacterSet s =
      (s.data.find? (fun c => !(validRunes.contains c))).map
        (fun c => VErr.charNotAllowed c s) := by
  have he := csLoop_eq_find s s.data
  refine ⟨?_, he⟩
  rw [ValidateCharacterSet, he]
  constructor
  · intro h c hc
    rcases hf : s.data.find? (fun c => !(validRunes.contains c)) with _ | x
    · have := List.find?_eq_none.mp hf c hc
      simpa using this
    · rw [hf] at h
      simp at h
  · intro h
    have hn : s.data.find? (fun c => !(validRunes.contains c)) = none :=
      List.find?_eq_none.mpr (fun x hx => by simpa using h x hx)
    rw [hn]
    rfl

/-- Witness for C3 at a concrete accepted string. -/
theorem c3_character_set_guard_witness : ValidateCharacterSet ("abc") = none :=
  (c3_character_set_guard ("abc")).1.mpr (by decide)

/-! ## Claim C4 -/

/-- The structured-billing record of the end-to-end scenario: invoice
number 10201409, invoice date 2019-05-12, customer reference
1400.000-53, VAT number 106017086, VAT date 2018-05-08, one VAT rate of
7.7 percent with no amount, payment conditions 2 percent / 10 days and
0 percent / 30 days. -/
def billEx : BillInformation :=
  { invoiceNumber := "10201409"
    invoiceDate := OneDate 2019 5 12
    customerReference := "1400.000-53"
    vatNumber := "106017086"
    vatDates := OneDate 2018 5 8
    vatRates := [⟨77/10, 0⟩]
    vatImportTaxRates := []
    conditions := [⟨2, 10⟩, ⟨0, 30⟩] }

/-- C4: the end-to-end billing scenario encodes to exactly the expected
sub-field string. -/
theorem c4_bill_encoding :
    billEx.ToString =
      "//S1/10/10201409/11/190512/20/1400.000-53/30/106017086/31/180508/32/7.7/40/2:10;0:30" := by
  decide

/-! ## Claim C8 -/

/-- C8: for at most two alternative procedures, the serialized record is
exactly two lines joined by one CRLF, line `i` holding the procedure
text of entry `i`, missing entries encoded as empty lines. -/
theorem c8_alt_procedures_record (vec : List AlternativeProcedure) (h : vec.length ≤ 2) :
    AlternativeProcedures.Serialize vec =
      some ((vec[0]?.map AlternativeProcedure.procedure).getD "" ++ "\r\n" ++
            (vec[1]?.map AlternativeProcedure.procedure).getD "") := by
  match vec with
  | [] => rfl
  | [a] => rfl
  | [a, b] => rfl
  | a :: b :: c :: rest => simp at h

/-- Witness for C8 with a single procedure. -/
theorem c8_alt_procedures_record_witness :
    AlternativeProcedures.Serialize [⟨"L1", "P1"⟩] = some ("P1\r\n") :=
  c8_alt_procedures_record [⟨"L1", "P1"⟩] (by decide)

/-! ## Claim C9 -/

/-- A structured-billing record that is valid except that its invoice
date carries a start and a later end date. -/
def billDateRange : BillInformation :=
  { invoiceNumber := ""
    invoiceDate := StartAndEndDate 2019 5 12 2019 6 12
    customerReference := ""
    vatNumber := ""
    vatDates := ⟨none, none⟩
    vatRates := []
    vatImportTaxRates := []
    conditions := [] }

/-- The same record with the single start date only. -/
def billOneDate : BillInformation :=
  { billDateRange with invoiceDate := OneDate 2019 5 12 }

/-- Counterexample to C9: a record whose only deviation from an
accepted record is an invoice-date range is rejected by
`BillInformation.Validate` with the invoice-date error. -/
theorem c9_counterexample :
    billDateRange.Validate = some VErr.invoiceDateHasEnd ∧
    billOneDate.Validate = none := by
  exact ⟨rfl, rfl⟩

/-- C9 (amended): the invoice-date field of a structured billing record
may hold only a single date: whenever the invoice number passes the
character-set check and the invoice date carries an end date, validation
fails with the invoice-date error. -/
theorem c9_amended_invoice_date (bi : BillInformation) (e : GoDate)
    (hcs : ValidateCharacterSet bi.invoiceNumber = none)
    (he : bi.invoiceDate.endDate = some e) :
    bi.Validate = some VErr.invoiceDateHasEnd := by
  unfold BillInformation.Validate
  rw [hcs, he]
  simp

/-- Witness for the amended C9. -/
theorem c9_amended_invoice_date_witness :
    billDateRange.Validate = some VErr.invoiceDateHasEnd :=
  c9_amended_invoice_date billDateRange ⟨2019, 6, 12⟩ rfl rfl

/-! ## Claim C10 -/

/-- C10: serialization of a payment amount writes an empty amount line
iff the amount is not strictly positive; a strictly positive amount is
written fixed to two decimal places (a digit string, one point, two
digits); the line is followed by CRLF and the currency. -/
theorem c10_amount_serialization (pa : PaymentAmount) :
    (pa.Serialize = "\r\n" ++ pa.currency ↔ pa.amount ≤ 0) ∧
    (0 < pa.amount →
      pa.Serialize = formatFixed2 pa.amount ++ "\r\n" ++ pa.currency ∧
      ∃ n d1 d2, formatFixed2 pa.amount = n ++ "." ++ ⟨[d1, d2]⟩ ∧
        d1.isDigit = true ∧ d2.isDigit = true ∧ ∀ c ∈ n.data, c.isDigit = true) := by
  constructor
  · by_cases hp : 0 < pa.amount
    · rw [PaymentAmount.Serialize, if_pos hp]
      constructor
      · intro he
        exfalso
        have hl := congrArg String.length he
        rw [formatFixed2_form pa.amount (by exact not_lt.mpr (le_of_lt hp))] at hl
        simp [String.length_append] at hl
      · intro hle
        exact absurd hp (not_lt.mpr hle)
    · rw [PaymentAmount.Serialize, if_neg hp]
      exact ⟨fun _ => not_lt.mp hp, fun _ => rfl⟩
  · intro hp
    rw [PaymentAmount.Serialize, if_pos hp]
    refine ⟨rfl, natStr (round2 pa.amount / 100), _, _,
      formatFixed2_form pa.amount (not_lt.mpr (le_of_lt hp)), ?_, ?_, natChars_digits _⟩
    · exact digitChar_isDigit _ (Nat.mod_lt _ (by omega))
    · exact digitChar_isDigit _ (Nat.mod_lt _ (by omega))

/-- Witness for C10 at amount 12.34 CHF. -/
theorem c10_amount_serialization_witness :
    (PaymentAmount.mk (1234/100) ("CHF")).Serialize =
      formatFixed2 (1234/100) ++ "\r\n" ++ "CHF" :=
  ((c10_amount_serialization ⟨1234/100, "CHF"⟩).2 (by norm_num)).1

/-! ## Payload fixtures used by witnesses and counterexamples -/

/-- An empty structured-billing record. -/
def emptyBill : BillInformation :=
  ⟨"", ⟨none, none⟩, "", "", ⟨none, none⟩, [], [], []⟩

/-- The minimal correct entity of the repository's validation tests. -/
def minimalEntity : Entity :=
  { name := "Test Creditor"
    address := some (Address.combined ⟨"", "Test Address"⟩)
    countryCode := "CH" }

/-- The minimal correct payload of the repository's validation tests:
an ordinary (non-QR) IBAN, the minimal creditor, zero CHF. -/
def minimalPayload : Payload :=
  { account := ⟨some ⟨"CH5604835012345678009", "CH", "04835012345678009", ""⟩⟩
    creditor := minimalEntity
    ultimateCreditor := ⟨"", none, ""⟩
    currencyAmount := ⟨0, "CHF"⟩
    ultimateDebtor := ⟨"", none, ""⟩
    reference := ⟨none⟩
    additionalInformation := ⟨"", emptyBill⟩
    alternativeProcedureParameters := [] }

/-- The minimal payload with a QR-IBAN (bank clearing number 31999) and
a QR reference number. -/
def validQRPayload : Payload :=
  { minimalPayload with
    account := ⟨some ⟨"CH4431999123000889012", "CH", "31999123000889012", ""⟩⟩
    reference := ⟨some (RefNumber.qr "210000000003139471430009017")⟩ }

/-- The minimal payload whose account IBAN carries an empty
basic bank account number. -/
def shortBBANPayload : Payload :=
  { minimalPayload with account := ⟨some ⟨"", "CH", "", ""⟩⟩ }

/-- A payload with every field empty (no account). -/
def emptyPayload : Payload :=
  { account := ⟨none⟩
    creditor := ⟨"", none, ""⟩
    ultimateCreditor := ⟨"", none, ""⟩
    currencyAmount := ⟨0, ""⟩
    ultimateDebtor := ⟨"", none, ""⟩
    reference := ⟨none⟩
    additionalInformation := ⟨"", emptyBill⟩
    alternativeProcedureParameters := [] }

/-! ## Inversion lemmas for `Payload.Validate` -/

theorem vseq_ok (r : Option VErr) (k : VResult) (h : vseq r k = VResult.ok) :
    r = none ∧ k = VResult.ok := by
  cases r
  · exact ⟨rfl, h⟩
  · exact absurd h (by simp [vseq])

theorem vseq_ne_panic (r : Option VErr) (k : VResult) (hk : k ≠ VResult.panic) :
    vseq r k ≠ VResult.panic := by
  cases r
  · exact hk
  · simp [vseq]

/-- A payload that validates successfully has all sub-validators
succeeding (the components needed by the serializer). -/
theorem validate_ok_parts (p : Payload) (h : p.Validate = VResult.ok) :
    p.account.Validate = none ∧ p.creditor.Validate = none ∧
    p.ultimateCreditor.Validate = none ∧ p.ultimateDebtor.Validate = none ∧
    AlternativeProcedures.Validate p.alternativeProcedureParameters = none := by
  unfold Payload.Validate at h
  obtain ⟨hA, h⟩ := vseq_ok _ _ h
  obtain ⟨hB, h⟩ := vseq_ok _ _ h
  obtain ⟨hC, h⟩ := vseq_ok _ _ h
  obtain ⟨hD, h⟩ := vseq_ok _ _ h
  obtain ⟨hE, h⟩ := vseq_ok _ _ h
  obtain ⟨hF, h⟩ := vseq_ok _ _ h
  obtain ⟨hG, h⟩ := vseq_ok _ _ h
  obtain ⟨hH, h⟩ := vseq_ok _ _ h
  exact ⟨hA, hB, hC, hE, hH⟩

theorem account_validate_iban (a : AccountNumber) (h : a.Validate = none) :
    ∃ ib, a.iban = some ib := by
  rcases hi : a.iban with _ | ib
  · rw [AccountNumber.Validate, hi] at h
    exact nomatch h
  · exact ⟨ib, rfl⟩

/-- A valid entity always serializes (the nil-address panic branch is
unreachable). -/
theorem entity_serialize_total (e : Entity) (h : e.Validate = none) :
    ∃ s, e.Serialize = some s := by
  by_cases hn : e.name = ""
  · exact ⟨_, by rw [Entity.Serialize, if_pos hn]⟩
  · rcases ha : e.address with _ | a
    · exfalso
      rw [Entity.Validate, ha] at h
      repeat' split at h
      all_goals simp_all
    · exact ⟨_, by rw [Entity.Serialize, if_neg hn, ha]⟩

theorem altProcs_validate_length (vec : List AlternativeProcedure)
    (h : AlternativeProcedures.Validate vec = none) : vec.length ≤ 2 := by
  rw [AlternativeProcedures.Validate] at h
  by_cases h2 : 2 < vec.length
  · rw [if_pos h2] at h
    exact nomatch h
  · omega

theorem apSlots_total (vec : List AlternativeProcedure) (h : vec.length ≤ 2) :
    ∃ s, AlternativeProcedures.Serialize vec = some s := by
  match vec with
  | [] => exact ⟨_, rfl⟩
  | [a] => exact ⟨_, rfl⟩
  | [a, b] => exact ⟨_, rfl⟩
  | a :: b :: c :: rest => simp at h

/-! ## Claim C2 -/

/-- Counterexample to C2: on an invalid payload, `Serialize` returns the
validation failure itself — the encoder does run the validation engine. -/
theorem c2_counterexample :
    emptyPayload.Serialize = SResult.error VErr.noAccount ∧
    emptyPayload.Validate = VResult.err VErr.noAccount := by
  exact ⟨rfl, rfl⟩

/-- C2 (amended): `Serialize` validates internally: it returns the
validation failure on an invalid record, and on a valid record it writes
the wire format (a pure function of the record's fields, never a
failure). -/
theorem c2_amended_serialize_validates (p : Payload) :
    (∀ e, p.Validate = VResult.err e → p.Serialize = SResult.error e) ∧
    (p.Validate = VResult.ok → ∃ s, p.payloadText = some s ∧ p.Serialize = SResult.ok s) := by
  constructor
  · intro e he
    rw [Payload.Serialize, he]
  · intro hok
    obtain ⟨hA, hB, hC, hE, hH⟩ := validate_ok_parts p hok
    obtain ⟨ib, hib⟩ := account_validate_iban p.account hA
    obtain ⟨s1, hs1⟩ := entity_serialize_total _ hB
    obtain ⟨s2, hs2⟩ := entity_serialize_total _ hC
    obtain ⟨s3, hs3⟩ := entity_serialize_total _ hE
    obtain ⟨s4, hs4⟩ := apSlots_total _ (altProcs_validate_length _ hH)
    have hpt : p.payloadText =
        some ("SPC\r\n0200\r\n1\r\n" ++ ib.code ++ "\r\n" ++ s1 ++ "\r\n" ++ s2
          ++ "\r\n" ++ p.currencyAmount.Serialize ++ "\r\n" ++ s3 ++ "\r\n"
          ++ p.reference.Serialize ++ "\r\n" ++ p.additionalInformation.Serialize
          ++ "\r\n" ++ s4) := by
      unfold Payload.payloadText
      rw [hib, hs1, hs2, hs3, hs4]
    refine ⟨_, hpt, ?_⟩
    unfold Payload.Serialize
    rw [hok, hpt]

/-- Witness for the amended C2 on the minimal valid payload. -/
theorem c2_amended_serialize_validates_witness :
    ∃ s, minimalPayload.payloadText = some s ∧ minimalPayload.Serialize = SResult.ok s :=
  (c2_amended_serialize_validates minimalPayload).2 (by decide)

/-! ## Claim C7 -/

/-- Counterexample to C7: a payload passing every sub-validation whose
IBAN carries a basic bank account number shorter than two bytes makes
`Validate` panic (the Go slice `BBAN[:2]` is out of range). -/
theorem c7_counterexample : shortBBANPayload.Validate = VResult.panic := by
  decide

/-- C7 (amended): `Validate` terminates normally — success or reportable
failure, never a panic — for every payload whose account IBAN, when
present, has a basic bank account number of at least two bytes. -/
theorem c7_amended_validate_no_panic (p : Payload)
    (h : ∀ ib, p.account.iban = some ib → 2 ≤ goLen ib.bban) :
    p.Validate ≠ VResult.panic := by
  unfold Payload.Validate
  cases hA : p.account.Validate with
  | some e => simp [vseq]
  | none =>
    obtain ⟨ib, hib⟩ := account_validate_iban p.account hA
    have hlen := h ib hib
    have hge : ¬ (goLen ib.bban < 2) := by omega
    apply vseq_ne_panic _ _ ?_
    apply vseq_ne_panic _ _ ?_
    apply vseq_ne_panic _ _ ?_
    apply vseq_ne_panic _ _ ?_
    apply vseq_ne_panic _ _ ?_
    apply vseq_ne_panic _ _ ?_
    apply vseq_ne_panic _ _ ?_
    apply vseq_ne_panic _ _ ?_
    by_cases h9 : p.creditor.name = ""
    · simp [h9]
    · by_cases h10 : p.ultimateCreditor.name = ""
      · rcases p.reference.number with _ | r
        · simp [h9, h10, hib, hge]
          split <;> simp
        · cases r <;> simp [h9, h10, hib, hge] <;> split <;> simp
      · simp [h9, h10]

/-- Witness for the amended C7 on the minimal valid payload. -/
theorem c7_amended_validate_no_panic_witness :
    minimalPayload.Validate ≠ VResult.panic :=
  c7_amended_validate_no_panic minimalPayload (by
    intro ib hib
    have : ib = ⟨"CH5604835012345678009", "CH", "04835012345678009", ""⟩ :=
      (Option.some.injEq _ _).mp hib.symm
    subst this
    decide)

/-! ## Claim C1 -/

/-- C1: for a payload satisfying every other validation rule (all eight
sub-validators succeed, the creditor is named, the ultimate creditor is
empty, and the BBAN carries at least the two bytes that the code slices
off): with a QR-IBAN (BBAN starting with 30 or 31), `Validate` succeeds
iff the reference is the QR-reference variant, any other reference
failing with the QR-reference-required error; with any other account,
a QR reference fails with the not-allowed error while an absent
reference or any non-QR variant (in particular the ISO creditor
reference) is accepted. -/
theorem c1_account_reference_rule (p : Payload) (ib : IBAN)
    (hib : p.account.iban = some ib)
    (hlen : 2 ≤ goLen ib.bban)
    (h1 : p.account.Validate = none)
    (h2 : p.creditor.Validate = none)
    (h3 : p.ultimateCreditor.Validate = none)
    (h4 : p.currencyAmount.Validate = none)
    (h5 : p.ultimateDebtor.Validate = none)
    (h6 : p.reference.Validate = none)
    (h7 : p.additionalInformation.Validate = none)
    (h8 : AlternativeProcedures.Validate p.alternativeProcedureParameters = none)
    (h9 : p.creditor.name ≠ "")
    (h10 : p.ultimateCreditor.name = "") :
    (isQRIBAN ib = true →
      ((p.Validate = VResult.ok ↔ isQRRef p.reference.number = true) ∧
       (isQRRef p.reference.number = false →
         p.Validate = VResult.err VErr.qrReferenceRequired))) ∧
    (isQRIBAN ib = false →
      ((isQRRef p.reference.number = true →
         p.Validate = VResult.err VErr.qrReferenceNotAllowed) ∧
       (isQRRef p.reference.number = false → p.Validate = VResult.ok))) := by
  have hv : p.Validate = (if isQRIBAN ib then
      match p.reference.number with
      | some (RefNumber.qr _) => VResult.ok
      | _ => VResult.err VErr.qrReferenceRequired
    else
      match p.reference.number with
      | some (RefNumber.qr _) => VResult.err VErr.qrReferenceNotAllowed
      | _ => VResult.ok) := by
    have hge : ¬ (goLen ib.bban < 2) := by omega
    unfold Payload.Validate
    rw [h1, h2, h3, h4, h5, h6, h7, h8]
    simp only [vseq]
    rw [if_neg h9, if_neg (by simp [h10]), hib]
    simp [hge]
  rcases hr : p.reference.number with _ | r
  · cases hq : isQRIBAN ib <;> simp [hv, hq, hr, isQRRef]
  · cases r <;> cases hq : isQRIBAN ib <;> simp [hv, hq, hr, isQRRef]

/-- Witness for C1: the QR-IBAN payload with a QR reference validates. -/
theorem c1_account_reference_rule_witness : validQRPayload.Validate = VResult.ok :=
  (((c1_account_reference_rule validQRPayload
      ⟨"CH4431999123000889012", "CH", "31999123000889012", ""⟩
      rfl (by decide) (by decide) (by decide) (by decide) (by decide) (by decide)
      (by decide) (by decide) (by decide) (by decide) rfl).1 (by decide)).1).mpr (by decide)

/-! ## Width arithmetic -/

theorem string_data_push (s : String) (c : Char) : (s.push c).data = s.data ++ [c] := by
  cases s
  rfl

theorem string_data_append (a b : String) : (a ++ b).data = a.data ++ b.data := by
  cases a
  cases b
  rfl

theorem charW_pos (c : Char) : 0 < charW c := by
  have hpos : ∀ p ∈ regularWX, (0:ℚ) < p.2 := by decide
  rw [charW, wxFind]
  rcases hff : regularWX.find? (fun p => p.1 = c) with _ | p
  · rw [hff]
    norm_num
  · rw [hff]
    simpa using hpos p (List.mem_of_find?_eq_some hff)

theorem charW_nonneg (c : Char) : 0 ≤ charW c := le_of_lt (charW_pos c)

theorem listWidth_go (l : List Char) (a : ℚ) :
    l.foldl (fun x c => x + charW c) a = a + listWidth l := by
  induction l generalizing a with
  | nil => simp [listWidth]
  | cons c rest ih =>
    show List.foldl _ (a + charW c) rest = _
    rw [ih]
    show _ = a + List.foldl _ (0 + charW c) rest
    rw [ih (0 + charW c)]
    ring

theorem listWidth_cons (c : Char) (l : List Char) :
    listWidth (c :: l) = charW c + listWidth l := by
  show List.foldl _ (0 + charW c) l = _
  rw [listWidth_go]
  ring

theorem listWidth_append (l1 l2 : List Char) :
    listWidth (l1 ++ l2) = listWidth l1 + listWidth l2 := by
  induction l1 with
  | nil => simp [listWidth]
  | cons c rest ih =>
    rw [List.cons_append, listWidth_cons, ih, listWidth_cons]
    ring

theorem listWidth_nonneg (l : List Char) : 0 ≤ listWidth l := by
  induction l with
  | nil => exact le_refl 0
  | cons c rest ih =>
    rw [listWidth_cons]
    exact add_nonneg (charW_nonneg c) ih

theorem listWidth_pos (l : List Char) (h : l ≠ []) : 0 < listWidth l := by
  cases l with
  | nil => exact absurd rfl h
  | cons c rest =>
    rw [listWidth_cons]
    exact add_pos_of_pos_of_nonneg (charW_pos c) (listWidth_nonneg rest)

theorem sw_append (a b : String) : stringWidth (a ++ b) = stringWidth a + stringWidth b := by
  rw [stringWidth, string_data_append, listWidth_append]
  rfl

theorem sw_push (s : String) (c : Char) :
    stringWidth (s.push c) = stringWidth s + charW c := by
  rw [stringWidth, string_data_push, listWidth_append, listWidth_cons]
  show stringWidth s + (charW c + listWidth []) = _
  rw [show listWidth [] = 0 from rfl]
  ring

theorem sw_nonneg (s : String) : 0 ≤ stringWidth s := listWidth_nonneg s.data

/-! ## Claim C6 -/

/-- When the whole line together with the ellipsis fits, no overflow
check ever fires and the original line is returned. -/
theorem shortenAux_all_fits (line : String) (w : ℚ) :
    ∀ (cs : List Char) (sh : String),
      stringWidth sh + listWidth cs + stringWidth ellipsisStr ≤ w →
      shortenAux line w cs sh (stringWidth sh) = line := by
  intro cs
  induction cs with
  | nil =>
    intro sh _
    rfl
  | cons r rest ih =>
    intro sh hle
    rw [shortenAux]
    have hrw : listWidth (r :: rest) = charW r + listWidth rest := listWidth_cons r rest
    rw [if_neg (by rw [hrw] at hle; push_neg; nlinarith [listWidth_nonneg rest])]
    have hrec := ih (sh.push r) (by rw [sw_push]; rw [hrw] at hle; linarith)
    rw [sw_push] at hrec
    exact hrec

/-- The behaviour of the truncation loop in general: either the original
line is returned, or a strict prefix plus the ellipsis, the result
fitting the width whenever the prefix is non-empty. -/
theorem shortenAux_spec (line : String) (w : ℚ) :
    ∀ (cs : List Char) (sh : String),
      sh.data ++ cs = line.data →
      (sh = "" ∨ stringWidth sh + stringWidth ellipsisStr ≤ w) →
      (shortenAux line w cs sh (stringWidth sh) = line ∨
       ∃ p : String, p.data <+: line.data ∧ p.data ≠ line.data ∧
         shortenAux line w cs sh (stringWidth sh) = p ++ ellipsisStr ∧
         (p ≠ "" → stringWidth (p ++ ellipsisStr) ≤ w)) := by
  intro cs
  induction cs with
  | nil =>
    intro sh _ _
    left
    rfl
  | cons r rest ih =>
    intro sh hpre hinv
    rw [shortenAux]
    by_cases hg : w < stringWidth sh + stringWidth ellipsisStr + charW r
    · rw [if_pos hg]
      right
      refine ⟨sh, ⟨r :: rest, hpre⟩, ?_, rfl, ?_⟩
      · intro heq
        have hl := congrArg List.length hpre
        rw [heq] at hl
        simp at hl
      · intro hne
        rcases hinv with h0 | hle
        · exact absurd h0 hne
        · rw [sw_append]
          exact hle
    · rw [if_neg hg]
      have hrec := ih (sh.push r)
        (by rw [string_data_push, List.append_assoc]; exact hpre)
        (Or.inr (by rw [sw_push]; linarith [not_lt.mp hg]))
      rw [sw_push] at hrec
      exact hrec

/-- Counterexample to C6: at width 1.666 the two-`m` line (width
exactly 1.666) is not returned unchanged — the loop needs room for the
ellipsis as well, and returns just the ellipsis. -/
theorem c6_counterexample :
    stringWidth ("mm") ≤ 1666/1000 ∧
    shortenToWidth ("mm") (1666/1000) = ellipsisStr ∧
    ellipsisStr ≠ "mm" := by
  decide

/-- C6 (amended): truncation returns `s` unchanged whenever the width of
`s` plus the ellipsis width is at most `w` (width of `s` alone at most
`w` is not sufficient); when it truncates, the result is a strict prefix
of `s` with the ellipsis appended, of width at most `w` unless the
prefix is empty, in which case the result is exactly the ellipsis
(whose width may exceed a very small `w`). -/
theorem c6_amended_truncation (s : String) (w : ℚ) :
    (stringWidth s + stringWidth ellipsisStr ≤ w → shortenToWidth s w = s) ∧
    (shortenToWidth s w = s ∨
     ∃ p : String, p.data <+: s.data ∧ p.data ≠ s.data ∧
       shortenToWidth s w = p ++ ellipsisStr ∧
       (p ≠ "" → stringWidth (p ++ ellipsisStr) ≤ w) ∧
       (p = "" → shortenToWidth s w = ellipsisStr)) := by
  constructor
  · intro h
    rw [shortenToWidth]
    exact shortenAux_all_fits s w s.data ""
      (by rw [show stringWidth "" = (0:ℚ) from rfl, zero_add]; exact h)
  · have hspec := shortenAux_spec s w s.data "" rfl (Or.inl rfl)
    rw [show stringWidth "" = (0:ℚ) from rfl] at hspec
    rw [shortenToWidth]
    rcases hspec with h | ⟨p, h1, h2, h3, h4⟩
    · left
      exact h
    · right
      refine ⟨p, h1, h2, h3, h4, ?_⟩
      intro hp
      subst hp
      rw [h3]
      exact str_empty_append _

/-- Witness for the amended C6: a short line is returned unchanged. -/
theorem c6_amended_truncation_witness : shortenToWidth ("ab") 10 = "ab" :=
  (c6_amended_truncation ("ab") 10).1 (by decide)

/-! ## Claim C5: width invariants of `reflowAtSpace` -/

theorem spaceWidth_eq_charW : spaceWidth = charW ' ' := by decide

theorem sw_space : stringWidth (" ") = spaceWidth := by decide

theorem str_ne_empty_of_data (s : String) (h : s.data ≠ []) : s ≠ "" := by
  intro he
  subst he
  exact h rfl

theorem push_ne_empty (s : String) (c : Char) : s.push c ≠ "" :=
  str_ne_empty_of_data _ (by rw [string_data_push]; exact List.append_ne_nil_of_right_ne_nil _ (by simp))

/-- The accumulating line is in a state from which flushing is safe:
either it fits the maximum width, or it is a single rune that alone
exceeds it. -/
def curOK (maxW : ℚ) (s : String) : Prop :=
  stringWidth s ≤ maxW ∨ ∃ c, s.data = [c] ∧ maxW < charW c

/-- The accumulating line possibly carries the unchecked separator space
appended on entry to the character-level fallback. -/
def entryOK (maxW : ℚ) (s : String) : Prop :=
  curOK maxW s ∨ ∃ m, s = m ++ " " ∧ curOK maxW m

/-- The loop invariant of the reflow state: the tracked width is the
width of the accumulating line, every flushed line satisfies the width
discipline, and the accumulating line is flush-safe. -/
def StOK (maxW : ℚ) (st : ReflowSt) : Prop :=
  st.curW = stringWidth st.cur ∧ (∀ l ∈ st.out, WidthOK maxW l) ∧ entryOK maxW st.cur

theorem flush_WOK (maxW : ℚ) (s : String) (h : entryOK maxW s) : WidthOK maxW s := by
  rcases h with h | ⟨m, rfl, hm⟩
  · rcases h with h | ⟨c, hc, hbig⟩
    · exact Or.inl h
    · exact Or.inr (Or.inr ⟨c, Or.inl hc, hbig⟩)
  · rcases hm with hm | ⟨c, hc, hbig⟩
    · exact Or.inr (Or.inl ⟨m, rfl, hm⟩)
    · refine Or.inr (Or.inr ⟨c, Or.inr ?_, hbig⟩)
      rw [string_data_append, hc]
      rfl

theorem runeStep_StOK (maxW : ℚ) (st : ReflowSt) (r : Char) (h : StOK maxW st) :
    StOK maxW (runeStep maxW st r) ∧ curOK maxW (runeStep maxW st r).cur := by
  obtain ⟨hw, hout, hcur⟩ := h
  rw [runeStep]
  by_cases hg : maxW < st.curW + charW r
  · rw [if_pos hg]
    have hcok : curOK maxW (String.push "" r) := by
      by_cases hr : maxW < charW r
      · exact Or.inr ⟨r, by rw [string_data_push]; rfl, hr⟩
      · left
        rw [sw_push]
        have h0 : stringWidth "" = 0 := rfl
        rw [h0, zero_add]
        exact not_lt.mp hr
    refine ⟨⟨?_, ?_, Or.inl hcok⟩, hcok⟩
    · rw [sw_push]
      rfl
    · intro l hl
      rcases List.mem_append.mp hl with h1 | h2
      · exact hout l h1
      · rw [List.mem_singleton.mp h2]
        exact flush_WOK maxW st.cur hcur
  · rw [if_neg hg]
    have hcok : curOK maxW (st.cur.push r) := by
      left
      rw [sw_push, ← hw]
      exact not_lt.mp hg
    exact ⟨⟨by rw [sw_push, hw], hout, Or.inl hcok⟩, hcok⟩

theorem runeFold_StOK (maxW : ℚ) :
    ∀ (cs : List Char) (st : ReflowSt), StOK maxW st →
      StOK maxW (cs.foldl (runeStep maxW) st) ∧
      (cs ≠ [] → curOK maxW (cs.foldl (runeStep maxW) st).cur) := by
  intro cs
  induction cs with
  | nil =>
    intro st h
    exact ⟨h, fun hc => absurd rfl hc⟩
  | cons c rest ih =>
    intro st h
    obtain ⟨h1, hc1⟩ := runeStep_StOK maxW st c h
    obtain ⟨h2, hc2⟩ := ih (runeStep maxW st c) h1
    refine ⟨h2, fun _ => ?_⟩
    cases rest with
    | nil => exact hc1
    | cons x xs => exact hc2 (by simp)

theorem wordStep_StOK (maxW : ℚ) (st : ReflowSt) (word : String)
    (hword : word.data ≠ []) (h : StOK maxW st) (hcur : curOK maxW st.cur) :
    StOK maxW (wordStep maxW st word) ∧ curOK maxW (wordStep maxW st word).cur := by
  obtain ⟨hw, hout, _⟩ := h
  rw [wordStep]
  by_cases hbig : maxW < stringWidth word
  · rw [if_pos hbig]
    by_cases hne : st.cur ≠ ""
    · rw [if_pos hne]
      have hentry : StOK maxW (ReflowSt.mk st.out (st.cur ++ " ") (st.curW + spaceWidth)) := by
        refine ⟨?_, hout, Or.inr ⟨st.cur, rfl, hcur⟩⟩
        rw [sw_append, sw_space, hw]
      obtain ⟨h1, h2⟩ := runeFold_StOK maxW word.data _ hentry
      exact ⟨h1, h2 hword⟩
    · rw [if_neg hne]
      obtain ⟨h1, h2⟩ := runeFold_StOK maxW word.data st ⟨hw, hout, Or.inl hcur⟩
      exact ⟨h1, h2 hword⟩
  · rw [if_neg hbig]
    have hwle : stringWidth word ≤ maxW := not_lt.mp hbig
    by_cases hne : st.cur ≠ ""
    · rw [if_pos hne]
      by_cases hflush : maxW < st.curW + spaceWidth + stringWidth word
      · rw [if_pos hflush]
        have hcok : curOK maxW ("" ++ word) := by
          left
          rw [sw_append]
          have h0 : stringWidth "" = 0 := rfl
          rw [h0, zero_add]
          exact hwle
        refine ⟨⟨by rw [sw_append]; rfl, ?_, Or.inl hcok⟩, hcok⟩
        intro l hl
        rcases List.mem_append.mp hl with h1 | h2
        · exact hout l h1
        · rw [List.mem_singleton.mp h2]
          exact flush_WOK maxW st.cur (Or.inl hcur)
      · rw [if_neg hflush]
        have hcok : curOK maxW ((st.cur ++ " ") ++ word) := by
          left
          rw [sw_append, sw_append, sw_space, ← hw]
          exact not_lt.mp hflush
        exact ⟨⟨by rw [sw_append, sw_append, sw_space, hw], hout, Or.inl hcok⟩, hcok⟩
    · rw [if_neg hne]
      have hemp : st.cur = "" := by
        by_contra hc
        exact hne hc
      have hcok : curOK maxW (st.cur ++ word) := by
        left
        rw [sw_append, hemp]
        have h0 : stringWidth "" = 0 := rfl
        rw [h0, zero_add]
        exact hwle
      exact ⟨⟨by rw [sw_append, hw], hout, Or.inl hcok⟩, hcok⟩

/-- Every word produced by the `strings.Fields` loop is non-empty. -/
theorem fieldsLoop_ne_nil :
    ∀ (l acc : List Char) (wrd : List Char), wrd ∈ fieldsLoop l acc → wrd ≠ [] := by
  intro l
  induction l with
  | nil =>
    intro acc wrd hm
    rw [fieldsLoop] at hm
    by_cases ha : acc = []
    · rw [if_pos ha] at hm
      exact absurd hm (List.not_mem_nil wrd)
    · rw [if_neg ha] at hm
      rw [List.mem_singleton.mp hm]
      simpa using ha
  | cons c rest ih =>
    intro acc wrd hm
    rw [fieldsLoop] at hm
    by_cases hs : goIsSpace c
    · rw [if_pos hs] at hm
      by_cases ha : acc = []
      · rw [if_pos ha] at hm
        exact ih [] wrd hm
      · rw [if_neg ha] at hm
        rcases List.mem_cons.mp hm with h1 | h2
        · rw [h1]
          simpa using ha
        · exact ih [] wrd h2
    · rw [if_neg hs] at hm
      exact ih (c :: acc) wrd hm

theorem goFields_words_ne_nil (line : String) :
    ∀ wrd ∈ goFields line, wrd.data ≠ [] := by
  intro wrd hm
  rw [goFields] at hm
  obtain ⟨l, hl, rfl⟩ := List.mem_map.mp hm
  exact fieldsLoop_ne_nil line.data [] l hl

theorem wordFold_StOK (maxW : ℚ) :
    ∀ (words : List String) (st : ReflowSt),
      (∀ w ∈ words, w.data ≠ []) → StOK maxW st → curOK maxW st.cur →
      StOK maxW (words.foldl (wordStep maxW) st) ∧
      curOK maxW (words.foldl (wordStep maxW) st).cur := by
  intro words
  induction words with
  | nil =>
    intro st _ h hc
    exact ⟨h, hc⟩
  | cons w rest ih =>
    intro st hne h hc
    obtain ⟨h1, hc1⟩ := wordStep_StOK maxW st w (hne w (by simp)) h hc
    exact ih (wordStep maxW st w) (fun x hx => hne x (by simp [hx])) h1 hc1

/-- Every line contributed by one input line satisfies the width
discipline, provided the previously flushed lines do. -/
theorem reflowLine_WOK (maxW : ℚ) (hpos : 0 < maxW) (acc : List String) (line : String)
    (hacc : ∀ l ∈ acc, WidthOK maxW l) :
    ∀ l ∈ reflowLine maxW acc line, WidthOK maxW l := by
  rw [reflowLine]
  by_cases hfit : stringWidth line < maxW
  · rw [if_pos hfit]
    intro l hl
    rcases List.mem_append.mp hl with h1 | h2
    · exact hacc l h1
    · rw [List.mem_singleton.mp h2]
      exact Or.inl (le_of_lt hfit)
  · rw [if_neg hfit]
    have hinit : StOK maxW (ReflowSt.mk acc "" 0) :=
      ⟨rfl, hacc, Or.inl (Or.inl (by exact le_of_lt hpos))⟩
    have hinitc : curOK maxW ("" : String) := Or.inl (le_of_lt hpos)
    obtain ⟨⟨_, hout, hentry⟩, _⟩ :=
      wordFold_StOK maxW (goFields line) _ (goFields_words_ne_nil line) hinit hinitc
    intro l hl
    rcases List.mem_append.mp hl with h1 | h2
    · exact hout l h1
    · rw [List.mem_singleton.mp h2]
      exact flush_WOK maxW _ hentry

theorem reflowAtSpace_WOK (maxW : ℚ) (hpos : 0 < maxW) :
    ∀ (lines : List String) (acc : List String), (∀ l ∈ acc, WidthOK maxW l) →
      ∀ l ∈ lines.foldl (reflowLine maxW) acc, WidthOK maxW l := by
  intro lines
  induction lines with
  | nil => exact fun acc hacc => hacc
  | cons line rest ih =>
    intro acc hacc
    exact ih (reflowLine maxW acc line) (reflowLine_WOK maxW hpos acc line hacc)

/-! ## Per-line decomposition of `reflowAtSpace` -/

theorem runeStep_frame (maxW : ℚ) (a o : List String) (c : String) (w : ℚ) (r : Char) :
    runeStep maxW (ReflowSt.mk (a ++ o) c w) r =
      ReflowSt.mk (a ++ (runeStep maxW (ReflowSt.mk o c w) r).out)
        (runeStep maxW (ReflowSt.mk o c w) r).cur
        (runeStep maxW (ReflowSt.mk o c w) r).curW := by
  rw [runeStep, runeStep]
  by_cases hg : maxW < w + charW r
  · rw [if_pos hg, if_pos hg]
    simp [List.append_assoc]
  · rw [if_neg hg, if_neg hg]

theorem runeFold_frame (maxW : ℚ) :
    ∀ (cs : List Char) (a o : List String) (c : String) (w : ℚ),
      cs.foldl (runeStep maxW) (ReflowSt.mk (a ++ o) c w) =
        ReflowSt.mk (a ++ (cs.foldl (runeStep maxW) (ReflowSt.mk o c w)).out)
          (cs.foldl (runeStep maxW) (ReflowSt.mk o c w)).cur
          (cs.foldl (runeStep maxW) (ReflowSt.mk o c w)).curW := by
  intro cs
  induction cs with
  | nil => intro a o c w; rfl
  | cons r rest ih =>
    intro a o c w
    show List.foldl _ (runeStep maxW (ReflowSt.mk (a ++ o) c w) r) rest = _
    rw [runeStep_frame]
    rcases hst : runeStep maxW (ReflowSt.mk o c w) r with ⟨o', c', w'⟩
    rw [ih a o' c' w']
    rw [List.foldl_cons, hst]

theorem wordStep_frame (maxW : ℚ) (a o : List String) (c : String) (w : ℚ) (word : String) :
    wordStep maxW (ReflowSt.mk (a ++ o) c w) word =
      ReflowSt.mk (a ++ (wordStep maxW (ReflowSt.mk o c w) word).out)
        (wordStep maxW (ReflowSt.mk o c w) word).cur
        (wordStep maxW (ReflowSt.mk o c w) word).curW := by
  rw [wordStep, wordStep]
  by_cases hbig : maxW < stringWidth word
  · rw [if_pos hbig, if_pos hbig]
    by_cases hne : c ≠ ""
    · simp only [if_pos hne]
      exact runeFold_frame maxW word.data a o (c ++ " ") (w + spaceWidth)
    · simp only [if_neg hne]
      exact runeFold_frame maxW word.data a o c w
  · rw [if_neg hbig, if_neg hbig]
    by_cases hne : c ≠ ""
    · simp only [if_pos hne]
      by_cases hflush : maxW < w + spaceWidth + stringWidth word
      · simp [if_pos hflush, List.append_assoc]
      · simp [if_neg hflush]
    · simp only [if_neg hne]

theorem wordFold_frame (maxW : ℚ) :
    ∀ (words : List String) (a o : List String) (c : String) (w : ℚ),
      words.foldl (wordStep maxW) (ReflowSt.mk (a ++ o) c w) =
        ReflowSt.mk (a ++ (words.foldl (wordStep maxW) (ReflowSt.mk o c w)).out)
          (words.foldl (wordStep maxW) (ReflowSt.mk o c w)).cur
          (words.foldl (wordStep maxW) (ReflowSt.mk o c w)).curW := by
  intro words
  induction words with
  | nil => intro a o c w; rfl
  | cons word rest ih =>
    intro a o c w
    show List.foldl _ (wordStep maxW (ReflowSt.mk (a ++ o) c w) word) rest = _
    rw [wordStep_frame]
    rcases hst : wordStep maxW (ReflowSt.mk o c w) word with ⟨o', c', w'⟩
    rw [ih a o' c' w']
    rw [List.foldl_cons, hst]

/-- One step of the reflow loop appends the line's own contribution to
the accumulated output. -/
theorem reflowLine_frame (maxW : ℚ) (acc : List String) (line : String) :
    reflowLine maxW acc line = acc ++ processLine maxW line := by
  rw [processLine, reflowLine, reflowLine]
  by_cases hfit : stringWidth line < maxW
  · rw [if_pos hfit, if_pos hfit]
    simp
  · rw [if_neg hfit, if_neg hfit]
    have := wordFold_frame maxW (goFields line) acc [] "" 0
    rw [show acc ++ ([] : List String) = acc from by simp] at this
    rw [this]
    simp [List.append_assoc]

/-- `reflowAtSpace` is the concatenation of the per-line results. -/
theorem reflowAtSpace_flatten_aux (maxW : ℚ) :
    ∀ (lines acc : List String),
      lines.foldl (reflowLine maxW) acc = acc ++ (lines.map (processLine maxW)).flatten := by
  intro lines
  induction lines with
  | nil => intro acc; simp
  | cons line rest ih =>
    intro acc
    show List.foldl _ (reflowLine maxW acc line) rest = _
    rw [ih, reflowLine_frame]
    simp [List.append_assoc]

theorem reflowAtSpace_flatten (lines : List String) (maxW : ℚ) :
    reflowAtSpace lines maxW = (lines.map (processLine maxW)).flatten := by
  rw [reflowAtSpace, reflowAtSpace_flatten_aux]
  rfl

/-! ## Reassembling reflowed output -/

theorem str_append_assoc (a b c : String) : (a ++ b) ++ c = a ++ (b ++ c) := by
  cases a with
  | mk l1 =>
    cases b with
    | mk l2 =>
      cases c with
      | mk l3 =>
        show String.mk ((l1 ++ l2) ++ l3) = String.mk (l1 ++ (l2 ++ l3))
        rw [List.append_assoc]

theorem str_append_empty (s : String) : s ++ "" = s := by
  cases s with
  | mk l =>
    show String.mk (l ++ []) = String.mk l
    rw [List.append_nil]

theorem str_mk_data (s : String) : String.mk s.data = s := by
  cases s
  rfl

theorem str_mk_cons (c : Char) (cs : List Char) :
    String.mk (c :: cs) = String.mk [c] ++ String.mk cs := rfl

theorem str_push_eq_append (s : String) (c : Char) : s.push c = s ++ String.mk [c] := by
  cases s
  rfl

theorem str_data_ne_nil (s : String) (h : s ≠ "") : s.data ≠ [] := by
  intro hd
  exact h (by rw [← str_mk_data s, hd])

theorem joinWords_cons_ne (w : String) (ws : List String) (h : ws ≠ []) :
    joinWords (w :: ws) = w ++ " " ++ joinWords ws := by
  cases ws with
  | nil => exact absurd rfl h
  | cons x xs => rfl

theorem joinWords_snoc (ws : List String) (v : String) (h : ws ≠ []) :
    joinWords (ws ++ [v]) = joinWords ws ++ " " ++ v := by
  induction ws with
  | nil => exact absurd rfl h
  | cons w rest ih =>
    cases rest with
    | nil => rfl
    | cons x xs =>
      rw [List.cons_append, joinWords_cons_ne w ((x :: xs) ++ [v]) (by simp),
          joinWords_cons_ne w (x :: xs) (by simp), ih (by simp)]
      simp [str_append_assoc]

theorem rejoined_cons_ne (l : String) (ls : List String) (h : ls ≠ []) :
    rejoined (l :: ls) = (rejoined ls).flatMap (fun t => [l ++ t, l ++ " " ++ t]) := by
  cases ls with
  | nil => exact absurd rfl h
  | cons x xs => rfl

/-- Appending to the last line extends any reassembly by the same
suffix. -/
theorem rejoined_last_append :
    ∀ (xs : List String) (a u t : String),
      t ∈ rejoined (xs ++ [a]) → t ++ u ∈ rejoined (xs ++ [a ++ u]) := by
  intro xs
  induction xs with
  | nil =>
    intro a u t ht
    have h1 : t = a := List.mem_singleton.mp ht
    subst h1
    exact List.mem_singleton.mpr rfl
  | cons x xs ih =>
    intro a u t ht
    rw [List.cons_append, rejoined_cons_ne x _ (by simp)] at ht
    rw [List.cons_append, rejoined_cons_ne x _ (by simp)]
    rw [List.mem_flatMap] at ht ⊢
    obtain ⟨t', ht', hcase⟩ := ht
    refine ⟨t' ++ u, ih a u t' ht', ?_⟩
    simp only [List.mem_cons, List.mem_singleton, List.not_mem_nil, or_false] at hcase ⊢
    rcases hcase with h1 | h2
    · left
      rw [h1, str_append_assoc]
    · right
      rw [h2, str_append_assoc, str_append_assoc]

/-- Flushing the current line and starting a new one extends a
reassembly with either separator choice. -/
theorem rejoined_snoc :
    ∀ (xs : List String) (a b t : String), t ∈ rejoined (xs ++ [a]) →
      t ++ b ∈ rejoined (xs ++ [a, b]) ∧ t ++ " " ++ b ∈ rejoined (xs ++ [a, b]) := by
  intro xs
  induction xs with
  | nil =>
    intro a b t ht
    have h1 : t = a := List.mem_singleton.mp ht
    subst h1
    constructor
    · simp [rejoined]
    · simp [rejoined]
  | cons x xs ih =>
    intro a b t ht
    rw [List.cons_append, rejoined_cons_ne x _ (by simp)] at ht
    rw [List.cons_append, rejoined_cons_ne x _ (by simp)]
    rw [List.mem_flatMap] at ht
    obtain ⟨t', ht', hcase⟩ := ht
    obtain ⟨hb1, hb2⟩ := ih a b t' ht'
    simp only [List.mem_cons, List.mem_singleton, List.not_mem_nil, or_false] at hcase
    constructor
    · rw [List.mem_flatMap]
      refine ⟨t' ++ b, hb1, ?_⟩
      simp only [List.mem_cons, List.mem_singleton, List.not_mem_nil, or_false]
      rcases hcase with h1 | h2
      · left
        simp [h1, str_append_assoc]
      · right
        simp [h2, str_append_assoc]
    · rw [List.mem_flatMap]
      refine ⟨t' ++ " " ++ b, hb2, ?_⟩
      simp only [List.mem_cons, List.mem_singleton, List.not_mem_nil, or_false]
      rcases hcase with h1 | h2
      · left
        simp [h1, str_append_assoc]
      · right
        simp [h2, str_append_assoc]

theorem runeStep_cur_ne (maxW : ℚ) (st : ReflowSt) (r : Char) :
    (runeStep maxW st r).cur ≠ "" := by
  rw [runeStep]
  by_cases hg : maxW < st.curW + charW r
  · rw [if_pos hg]
    exact push_ne_empty _ r
  · rw [if_neg hg]
    exact push_ne_empty _ r

theorem runeFold_cur_ne (maxW : ℚ) :
    ∀ (cs : List Char) (st : ReflowSt), cs ≠ [] →
      (cs.foldl (runeStep maxW) st).cur ≠ "" := by
  intro cs
  induction cs with
  | nil => exact fun st h => absurd rfl h
  | cons r rest ih =>
    intro st _
    cases rest with
    | nil => exact runeStep_cur_ne maxW st r
    | cons x xs => exact ih (runeStep maxW st r) (by simp)

/-- Character-level fallback: processing the runes of a chunk appends
exactly that chunk's characters to any reassembly of the state. -/
theorem runeFold_concat (maxW : ℚ) :
    ∀ (cs : List Char) (st : ReflowSt) (T : String),
      T ∈ rejoined (st.out ++ [st.cur]) →
      T ++ String.mk cs ∈
        rejoined ((cs.foldl (runeStep maxW) st).out ++ [(cs.foldl (runeStep maxW) st).cur]) := by
  intro cs
  induction cs with
  | nil =>
    intro st T h
    simpa [str_append_empty] using h
  | cons r rest ih =>
    intro st T h
    have hstep : T ++ String.mk [r] ∈
        rejoined ((runeStep maxW st r).out ++ [(runeStep maxW st r).cur]) := by
      rw [runeStep]
      by_cases hg : maxW < st.curW + charW r
      · rw [if_pos hg]
        have := (rejoined_snoc st.out st.cur (String.mk [r]) T h).1
        simpa [List.append_assoc] using this
      · rw [if_neg hg]
        have := rejoined_last_append st.out st.cur (String.mk [r]) T h
        simpa [str_push_eq_append] using this
    have hrest := ih (runeStep maxW st r) (T ++ String.mk [r]) hstep
    rw [str_mk_cons r rest, ← str_append_assoc]
    exact hrest

/-- One word step appends the word (with the appropriate separator
treatment) to any reassembly, and leaves a non-empty current line. -/
theorem wordStep_concat (maxW : ℚ) (st : ReflowSt) (word : String) (ws : List String)
    (hword : word ≠ "")
    (hiff : st.cur = "" ↔ ws = [])
    (h : joinWords ws ∈ rejoined (st.out ++ [st.cur])) :
    joinWords (ws ++ [word]) ∈
      rejoined ((wordStep maxW st word).out ++ [(wordStep maxW st word).cur]) ∧
    (wordStep maxW st word).cur ≠ "" := by
  rw [wordStep]
  by_cases hbig : maxW < stringWidth word
  · rw [if_pos hbig]
    by_cases hne : st.cur ≠ ""
    · rw [if_pos hne]
      have hws : ws ≠ [] := fun hw => hne (hiff.mpr hw)
      have hT1 : joinWords ws ++ " " ∈ rejoined (st.out ++ [st.cur ++ " "]) :=
        rejoined_last_append st.out st.cur (" ") (joinWords ws) h
      have hfold := runeFold_concat maxW word.data
        (ReflowSt.mk st.out (st.cur ++ " ") (st.curW + spaceWidth)) (joinWords ws ++ " ") hT1
      rw [str_mk_data] at hfold
      rw [joinWords_snoc ws word hws]
      exact ⟨hfold, runeFold_cur_ne maxW word.data _ (str_data_ne_nil word hword)⟩
    · rw [if_neg hne]
      have hws : ws = [] := hiff.mp (by by_contra hc; exact hne hc)
      subst hws
      have hfold := runeFold_concat maxW word.data st (joinWords []) h
      rw [str_mk_data] at hfold
      rw [show joinWords ([] ++ [word]) = word from rfl]
      rw [show joinWords ([] : List String) = "" from rfl] at hfold
      rw [str_empty_append] at hfold
      exact ⟨hfold, runeFold_cur_ne maxW word.data _ (str_data_ne_nil word hword)⟩
  · rw [if_neg hbig]
    by_cases hne : st.cur ≠ ""
    · rw [if_pos hne]
      have hws : ws ≠ [] := fun hw => hne (hiff.mpr hw)
      by_cases hflush : maxW < st.curW + spaceWidth + stringWidth word
      · rw [if_pos hflush]
        have := (rejoined_snoc st.out st.cur ("" ++ word) (joinWords ws) h).2
        rw [str_empty_append word] at this
        refine ⟨?_, ?_⟩
        · rw [joinWords_snoc ws word hws]
          simpa [List.append_assoc, str_empty_append] using this
        · rw [str_empty_append word]
          exact hword
      · rw [if_neg hflush]
        have := rejoined_last_append st.out st.cur (" " ++ word) (joinWords ws) h
        refine ⟨?_, ?_⟩
        · rw [joinWords_snoc ws word hws]
          simpa [str_append_assoc] using this
        · apply str_ne_empty_of_data
          rw [string_data_append]
          exact List.append_ne_nil_of_right_ne_nil _ (str_data_ne_nil word hword)
    · rw [if_neg hne]
      have hws : ws = [] := hiff.mp (by by_contra hc; exact hne hc)
      subst hws
      have hcur : st.cur = "" := by by_contra hc; exact hne hc
      have := rejoined_last_append st.out st.cur word (joinWords []) h
      refine ⟨?_, ?_⟩
      · rw [show joinWords ([] ++ [word]) = word from rfl]
        rw [show joinWords ([] : List String) = "" from rfl] at this
        rw [str_empty_append] at this
        exact this
      · apply str_ne_empty_of_data
        rw [string_data_append]
        exact List.append_ne_nil_of_right_ne_nil _ (str_data_ne_nil word hword)

theorem wordFold_concat (maxW : ℚ) :
    ∀ (words : List String) (st : ReflowSt) (ws : List String),
      (∀ w ∈ words, w ≠ "") →
      (st.cur = "" ↔ ws = []) →
      joinWords ws ∈ rejoined (st.out ++ [st.cur]) →
      joinWords (ws ++ words) ∈
        rejoined ((words.foldl (wordStep maxW) st).out ++
          [(words.foldl (wordStep maxW) st).cur]) := by
  intro words
  induction words with
  | nil =>
    intro st ws _ _ h
    simpa using h
  | cons w rest ih =>
    intro st ws hne hiff h
    obtain ⟨hmem, hcne⟩ :=
      wordStep_concat maxW st w ws (hne w (by simp)) hiff h
    have := ih (wordStep maxW st w) (ws ++ [w]) (fun x hx => hne x (by simp [hx]))
      (iff_of_false hcne (by simp)) hmem
    rw [List.append_assoc] at this
    simpa using this

/-- For a line that enters the word-repacking branch, some choice of
separators reassembles the output lines into the line's words joined by
single spaces. -/
theorem processLine_concat (maxW : ℚ) (line : String) (hfit : ¬ stringWidth line < maxW) :
    joinWords (goFields line) ∈ rejoined (processLine maxW line) := by
  rw [processLine, reflowLine, if_neg hfit]
  have words_ne : ∀ w ∈ goFields line, w ≠ "" :=
    fun w hw => str_ne_empty_of_data w (goFields_words_ne_nil line w hw)
  have h0 : joinWords ([] : List String) ∈
      rejoined ((ReflowSt.mk ([] : List String) "" 0).out ++ [(ReflowSt.mk ([] : List String) "" 0).cur]) := by
    simp [joinWords, rejoined]
  have := wordFold_concat maxW (goFields line) (ReflowSt.mk [] "" 0) [] words_ne
    (by simp) h0
  simpa using this

theorem processLine_fit (maxW : ℚ) (line : String) (h : stringWidth line < maxW) :
    processLine maxW line = [line] := by
  rw [processLine, reflowLine, if_pos h]
  rfl

/-- Counterexample to C5: reflowing the single over-wide word `mm` at
width 1/2 emits a line (`m`) whose measured width exceeds the maximum,
and reflowing `mm  mm` (two spaces) at width 1.7 loses the duplicated
space: no choice of single-space-or-nothing separators reassembles the
original characters. -/
theorem c5_counterexample :
    (∃ l ∈ reflowAtSpace [("mm")] (1/2), ¬ stringWidth l ≤ 1/2) ∧
    ("mm  mm") ∉ rejoined (reflowAtSpace [("mm  mm")] (17/10)) := by
  decide

/-- C5 (amended): for every positive maximum width, (1) every line
emitted by the word-preserving reflow either fits the maximum width, or
is a line that fit followed by the unchecked separator space appended
before a character-level fallback (exceeding by at most one space
width), or consists of a single character (possibly plus that space)
that alone exceeds the maximum; (2) the output is the concatenation of
the per-input-line results; and (3) an input line narrower than the
maximum is kept unchanged, while for any other line some choice of
line-break separators — a single space where a break replaced a word
boundary, nothing where a word was split mid-word — reassembles the
output into the line's words joined by single spaces (the original
whitespace is normalized, not reproduced verbatim). -/
theorem c5_amended_reflow (lines : List String) (maxW : ℚ) (hpos : 0 < maxW) :
    (∀ l ∈ reflowAtSpace lines maxW, WidthOK maxW l) ∧
    reflowAtSpace lines maxW = (lines.map (processLine maxW)).flatten ∧
    (∀ line : String,
      (stringWidth line < maxW → processLine maxW line = [line]) ∧
      (¬ stringWidth line < maxW →
        joinWords (goFields line) ∈ rejoined (processLine maxW line))) := by
  refine ⟨?_, reflowAtSpace_flatten lines maxW, ?_⟩
  · rw [reflowAtSpace]
    exact reflowAtSpace_WOK maxW hpos lines []
      (fun l hl => absurd hl (List.not_mem_nil l))
  · intro line
    exact ⟨processLine_fit maxW line, processLine_concat maxW line⟩

/-- Witness for the amended C5: a narrow line is kept unchanged. -/
theorem c5_amended_reflow_witness : processLine 100 ("ab") = [("ab")] :=
  ((c5_amended_reflow [("ab")] 100 (by norm_num)).2.2 ("ab")).1 (by decide)

end Swissqr
